import Mathlib

/-!
Verification development for the markdown image-hosting migration pipeline
(`client/src/markdown-processor.ts`, `client/src/api-client.ts`,
`src/image-describer.ts`).

Documents are modelled as `List Char` (the code operates on JS strings of
BMP code units; all inputs of interest are BMP, where JS string indices and
code-point indices agree).  External collaborators (asset-store HTTP server,
filesystem, vision oracle) are modelled as response oracles in an `Env`
record; every call the client code makes is recorded in an event trace so
that call-count properties can be stated.
-/

namespace ImgHost

/-- Characters JS `String.prototype.trim` (and `\s`) treat as whitespace,
restricted to the ASCII whitespace occurring in our documents. -/
def isWs (c : Char) : Bool := c == ' ' || c == '\t' || c == '\n' || c == '\r'

/-- JS `s.trim()`. -/
def trimChars (cs : List Char) : List Char :=
  ((cs.dropWhile isWs).reverse.dropWhile isWs).reverse

/-- JS `s.split("\n")`. -/
def splitNl : List Char → List (List Char)
  | [] => [[]]
  | c :: cs =>
    if c = '\n' then [] :: splitNl cs
    else
      match splitNl cs with
      | [] => [[c]]
      | l :: ls => (c :: l) :: ls

/-- Split a list at the first occurrence of character `c`:
returns the part before `c` and the part after it. -/
def splitAtChar (c : Char) : List Char → Option (List Char × List Char)
  | [] => none
  | x :: xs =>
    if x = c then some ([], xs)
    else (splitAtChar c xs).map (fun p => (x :: p.1, p.2))

/-- Substring test (used to reason about JS `String.prototype.includes` and
about occurrence of spans in a document). -/
def containsSub (s pat : List Char) : Bool :=
  if pat.isPrefixOf s then true
  else
    match s with
    | [] => false
    | _ :: rest => containsSub rest pat

/-!  ## Scanner

The three markdown-image regexes of `markdown-processor.ts`:

  LOCAL_IMAGE_REGEX  = /!\[([^\]]*)\]\((?!https?:\/\/)(?!data:image\/)([^)]+)\)/g
  REMOTE_IMAGE_REGEX = /!\[([^\]]*)\]\((https?:\/\/[^)]+)\)/g
  BASE64_IMAGE_REGEX = /!\[([^\]]*)\]\((data:image\/[a-zA-Z+]+;base64,[^)]+)\)/g

All three share the deterministic shape `![` alt `](` loc `)` where alt is
the maximal `]`-free run and loc the maximal nonempty `)`-free run (the
character classes exclude exactly the closing delimiters, so the greedy
match never backtracks); they differ only in the locator filter. -/

/-- The image-tag text `![alt](loc)`. -/
def mkTag (alt loc : List Char) : List Char :=
  '!' :: '[' :: alt ++ ']' :: '(' :: loc ++ [')']

/-- Try to match the common image-tag shape at the head of `cs`.  On success
returns the alt text, the locator and the remainder after the closing `)`.
Mirrors matching any of the three regexes at one position (before the
locator filter is applied). -/
def tagAt (cs : List Char) : Option (List Char × List Char × List Char) :=
  match cs with
  | c1 :: c2 :: rest =>
    if c1 = '!' then
      if c2 = '[' then
        match splitAtChar ']' rest with
        | none => none
        | some (alt, rest1) =>
          match rest1 with
          | c3 :: rest2 =>
            if c3 = '(' then
              match splitAtChar ')' rest2 with
              | none => none
              | some (loc, rest3) =>
                if loc = [] then none else some (alt, loc, rest3)
            else none
          | [] => none
      else none
    else none
  | _ => none

/-- One scanner match: alt text, locator and start offset in the scanned
text (the `fullMatch` string is `mkTag alt loc`). -/
structure MD where
  alt : List Char
  loc : List Char
  index : Nat
deriving Repr, DecidableEq

/-- `scanAux f cs pos skip` emulates `text.matchAll(regex)` for a regex of
the common shape with locator filter `f`, where `cs` is the unscanned tail
starting at offset `pos`; `skip` is the number of positions still covered
by the previous match (the regex engine resumes at `lastIndex`, i.e. right
after each match). -/
def scanAux (f : List Char → Bool) : List Char → Nat → Nat → List MD
  | [], _, _ => []
  | _ :: cs, pos, skip + 1 => scanAux f cs (pos + 1) skip
  | c :: cs, pos, 0 =>
    match tagAt (c :: cs) with
    | some (alt, loc, _) =>
      if f loc then
        ⟨alt, loc, pos⟩ :: scanAux f cs (pos + 1) (alt.length + loc.length + 4)
      else scanAux f cs (pos + 1) 0
    | none => scanAux f cs (pos + 1) 0

/-- Locator filter of LOCAL_IMAGE_REGEX: the two negative lookaheads. -/
def localLoc (loc : List Char) : Bool :=
  !("http://".data.isPrefixOf loc) && !("https://".data.isPrefixOf loc) &&
    !("data:image/".data.isPrefixOf loc)

/-- Locator filter of REMOTE_IMAGE_REGEX: `https?:\/\/[^)]+` must cover the
whole `)`-free locator, so the scheme prefix must be followed by at least
one further character (a scheme-only locator such as `http://` does not
match: `[^)]+` finds nothing and the optional-`s` backtracking cannot help). -/
def remoteLoc (loc : List Char) : Bool :=
  ("http://".data.isPrefixOf loc && !(loc.drop 7).isEmpty) ||
    ("https://".data.isPrefixOf loc && !(loc.drop 8).isEmpty)

/-- Locator filter of BASE64_IMAGE_REGEX: the strict
`data:image/<type>;base64,<payload>` shape, `<type>` a nonempty run over
`[a-zA-Z+]` and `<payload>` nonempty (it cannot contain `)` because the
locator itself is `)`-free). -/
def base64Loc (loc : List Char) : Bool :=
  let rest := loc.drop 11
  "data:image/".data.isPrefixOf loc &&
    match splitAtChar ';' rest with
    | none => false
    | some (typ, rest1) =>
      !typ.isEmpty && typ.all (fun c => c.isAlpha || c == '+') &&
      "base64,".data.isPrefixOf rest1 && !(rest1.drop 7).isEmpty

/-- All LOCAL_IMAGE_REGEX matches of a text. -/
def localMatches (cs : List Char) : List MD := scanAux localLoc cs 0 0

/-- All REMOTE_IMAGE_REGEX matches of a text. -/
def remoteMatches (cs : List Char) : List MD := scanAux remoteLoc cs 0 0

/-- All BASE64_IMAGE_REGEX matches of a text. -/
def base64Matches (cs : List Char) : List MD := scanAux base64Loc cs 0 0

/-! ## JS `String.prototype.replace` with a string pattern -/

/-- Split `s` at the first occurrence of `pat`: `s = before ++ pat ++ after`. -/
def splitFirst (s pat : List Char) : Option (List Char × List Char) :=
  if pat.isPrefixOf s then some ([], s.drop pat.length)
  else
    match s with
    | [] => none
    | c :: rest => (splitFirst rest pat).map (fun p => (c :: p.1, p.2))

/-- The backquote character (code 96), written by code point to keep the
source ASCII-clean. -/
def bqChar : Char := Char.ofNat 96

/-- The single-quote character (code 39). -/
def sqChar : Char := Char.ofNat 39

/-- JS `GetSubstitution` for a string pattern (no capture groups):
`$$`, `$&`, dollar-backquote and dollar-quote are expanded in the
replacement string; any other `$` sequence is literal. -/
def expandDollar (matched before after : List Char) : List Char → List Char
  | [] => []
  | c :: rest =>
    if c = '$' then
      match rest with
      | [] => ['$']
      | d :: rest2 =>
        if d = '$' then '$' :: expandDollar matched before after rest2
        else if d = '&' then matched ++ expandDollar matched before after rest2
        else if d = bqChar then before ++ expandDollar matched before after rest2
        else if d = sqChar then after ++ expandDollar matched before after rest2
        else '$' :: d :: expandDollar matched before after rest2
    else c :: expandDollar matched before after rest

/-- JS `s.replace(pat, repl)` with both arguments strings: replaces the
first occurrence of `pat`, expanding `$`-sequences in `repl`; returns `s`
unchanged when `pat` does not occur. -/
def jsReplaceFirst (s pat repl : List Char) : List Char :=
  match splitFirst s pat with
  | none => s
  | some (before, after) => before ++ expandDollar pat before after repl ++ after

/-! ## Context extractor (`getSurroundingParagraphs`) -/

/-- First match of `imageRegex = /!\[([^\]]*)\](?:\([^)]+\))/` anywhere in a
line; returns the alt-text group.  The shape is the common image-tag shape,
so `tagAt` is reused position by position. -/
def firstTagAlt : List Char → Option (List Char)
  | [] => none
  | c :: cs =>
    match tagAt (c :: cs) with
    | some (alt, _, _) => some alt
    | none => firstTagAlt cs

/-- JS `meaningfulTextRegex = /^[^!\[].*\S/` applied to a line: the first
character is neither `!` nor `[` and some later character is non-space. -/
def meaningfulTextTest : List Char → Bool
  | [] => false
  | c :: rest => !(c == '!' || c == '[') && rest.any (fun d => !(isWs d))

/-- Try to match the link shape `[alt](loc)` (the replace regex
`/\[([^\]]*)\](?:\([^)]+\))/` of the after-text cleanup, which has no `!`).
Returns the remainder after the closing `)` on success. -/
def linkAt (cs : List Char) : Option (List Char) :=
  match cs with
  | c1 :: rest =>
    if c1 = '[' then
      match splitAtChar ']' rest with
      | none => none
      | some (_, rest1) =>
        match rest1 with
        | c2 :: rest2 =>
          if c2 = '(' then
            match splitAtChar ')' rest2 with
            | none => none
            | some (loc, rest3) => if loc = [] then none else some rest3
          else none
        | [] => none
    else none
  | [] => none

/-- JS `fullContent.replace(/\[([^\]]*)\](?:\([^)]+\))/, "")`: remove the
first link-shaped occurrence. -/
def removeFirstLink : List Char → List Char
  | [] => []
  | c :: cs =>
    match linkAt (c :: cs) with
    | some rest => rest
    | none => c :: removeFirstLink cs

/-- Backward search of `getSurroundingParagraphs`: `ls` is the list of lines
before the current one, nearest first. -/
def beforeSearch : List (List Char) → List Char
  | [] => []
  | l :: ls =>
    let line := trimChars l
    if line.isEmpty then beforeSearch ls
    else
      match firstTagAlt line with
      | some alt => alt
      | none => if meaningfulTextTest line then line else beforeSearch ls

/-- The inner `while` of the forward search: starting from the trimmed
current line, append following trimmed lines (space-separated) while the
accumulated content has no `)` but looks like an unterminated image/link
fragment (contains `![` or `](`). -/
def collectFull (fullContent : List Char) : List (List Char) → List Char
  | [] => fullContent
  | l :: ls =>
    if !(containsSub fullContent [')']) &&
        (containsSub fullContent ['!', '['] || containsSub fullContent [']', '(']) then
      collectFull (fullContent ++ ' ' :: trimChars l) ls
    else fullContent

/-- Forward search of `getSurroundingParagraphs`: `ls` is the list of lines
after the current one, in order.  Note the source's `for` loop advances one
line at a time even when `collectFull` consumed several. -/
def afterSearch : List (List Char) → List Char
  | [] => []
  | l :: ls =>
    let line := trimChars l
    if line.isEmpty then afterSearch ls
    else
      let fullContent := collectFull line ls
      match firstTagAlt fullContent with
      | some alt => alt
      | none =>
        if meaningfulTextTest fullContent then trimChars (removeFirstLink fullContent)
        else afterSearch ls

/-- The line-index loop of `getSurroundingParagraphs`: finds the line
containing offset `m`; `i` is the index of the first line of `ls` and `cur`
the offset of its first character. -/
def findLineIndexAux : List (List Char) → Nat → Nat → Nat → Option Nat
  | [], _, _, _ => none
  | l :: ls, i, cur, m =>
    if cur + l.length + 1 > m then some i
    else findLineIndexAux ls (i + 1) (cur + l.length + 1) m

/-- Line index of offset `m`; the source leaves `currentLineIndex = 0` when
the loop never breaks (offset beyond the document). -/
def findLineIndex (lines : List (List Char)) (m : Nat) : Nat :=
  (findLineIndexAux lines 0 0 m).getD 0

/-- Total extent of a list of lines as counted by the line-index loop:
each line contributes its length plus one for the newline. -/
def sumLens (ls : List (List Char)) : Nat := (ls.map (fun l => l.length + 1)).sum

/-- `getSurroundingParagraphs(markdown, matchIndex)`: the before/after
context strings used as description-prompt context. -/
def getSurroundingParagraphs (markdown : List Char) (matchIndex : Nat) :
    List Char × List Char :=
  let lines := splitNl markdown
  let cur := findLineIndex lines matchIndex
  let beforeText := beforeSearch (lines.take cur).reverse
  let afterText := afterSearch (lines.drop (cur + 1))
  (trimChars beforeText, trimChars afterText)

/-! ## Alt-text genericity, UUID validation, path resolution -/

/-- The description trigger of all three phases:
`!altText || altText.trim() === "" || /^(image|img|picture|图片|图像)$/i.test(altText.trim())`. -/
def needsDescription (alt : List Char) : Bool :=
  alt.isEmpty || (trimChars alt).isEmpty ||
    (let t := (trimChars alt).map Char.toLower
     t == "image".data || t == "img".data || t == "picture".data ||
       t == "图片".data || t == "图像".data)

/-- A hexadecimal digit, either case (the UUID regex carries the `/i` flag). -/
def isHexDigit (c : Char) : Bool :=
  c.isDigit || ('a' ≤ c && c ≤ 'f') || ('A' ≤ c && c ≤ 'F')

/-- The orchestrator's UUIDv4 check
`/^[0-9a-f]{8}-[0-9a-f]{4}-4[0-9a-f]{3}-[89ab][0-9a-f]{3}-[0-9a-f]{12}$/i`. -/
def uuidV4Test (cs : List Char) : Bool :=
  match cs.splitOn '-' with
  | [g1, g2, g3, g4, g5] =>
    g1.length == 8 && g2.length == 4 && g3.length == 4 && g4.length == 4 &&
    g5.length == 12 && (g1 ++ g2 ++ g3 ++ g4 ++ g5).all isHexDigit &&
    g3.headD ' ' == '4' &&
    (let h := g4.headD ' '
     h == '8' || h == '9' || h == 'a' || h == 'b' || h == 'A' || h == 'B')
  | _ => false

/-- POSIX `path.isAbsolute`. -/
def pathIsAbsolute (p : List Char) : Bool := p.headD ' ' == '/'

/-- Model of Node `path.resolve(basePath, p)` for a non-absolute `p`:
join under `basePath`.  (Dot-segment normalization and the fallback to the
process working directory for a relative `basePath` belong to the external
`path` library and are elided; the claims only concern which base the
locator is resolved against.) -/
def pathResolve (basePath p : List Char) : List Char := basePath ++ '/' :: p

/-- Local-path resolution of `processLocalImages`:

    let fullPath = localPath
    if (localPath.startsWith("file:///")) fullPath = localPath.replace("file:///", "")
    else fullPath = path.isAbsolute(localPath) ? localPath : path.resolve(basePath, localPath)

(`replace` removes the first occurrence, which is the 8-character prefix.) -/
def resolveLocalPath (basePath localPath : List Char) : List Char :=
  if "file:///".data.isPrefixOf localPath then localPath.drop 8
  else if pathIsAbsolute localPath then localPath
  else pathResolve basePath localPath

/-! ## Asset client and orchestrator

State-passing embedding of `ApiClient` (`client/src/api-client.ts`) and of
`processMarkdown` / the three phase functions
(`client/src/markdown-processor.ts`).  Every externally observable call is
recorded as an `Event`; the external world answers through the response
oracles of an `Env`, indexed by how many calls of the same kind happened
before (each network call is an independent request that may succeed or
fail on its own). -/

/-- `ImageUploadResult` of `api-client.ts` (`response.data.images[0]`). -/
structure ImageUploadResult where
  originalName : List Char
  fileId : List Char
  fileExtension : List Char
  fullUrl : List Char
deriving Repr, DecidableEq

/-- Observable calls made by the client code. -/
inductive Event where
  /-- entry into `ApiClient.ensureCollection(name)` -/
  | ensureCall (name : List Char)
  /-- `GET /collections` -/
  | getCols
  /-- `POST /collections` with body name -/
  | createCol (name : List Char)
  /-- `fs.existsSync(fullPath)` in the local phase -/
  | fileCheck (path : List Char)
  /-- entry into `ApiClient.uploadLocalImage(path, collectionName)` -/
  | uploadLocalCall (path coll : List Char)
  /-- `POST /collections/:id/images` (shared by local and buffer uploads) -/
  | postImages (coll : List Char)
  /-- entry into `ApiClient.uploadRemoteImage(url, collectionName)` -/
  | uploadRemoteCall (url coll : List Char)
  /-- `axios.get(imageUrl)` download of a remote image -/
  | fetchRemote (url : List Char)
  /-- entry into `ApiClient.uploadBase64Image(data, filename, collectionName)` -/
  | uploadBase64Call (data coll : List Char)
  /-- `POST /collections/:id/base64` -/
  | postBase64 (coll : List Char)
  /-- the orchestrator's `apiClient.generateImageDescription(...)` call -/
  | describeCall (coll fileId before after : List Char)
deriving Repr, DecidableEq

/-- Mutable fields of one `ApiClient` instance. -/
structure ClientState where
  collectionId : Option (List Char)
  collectionName : Option (List Char)
deriving Repr, DecidableEq

/-- One run's state: the client instance plus the event trace so far. -/
structure PState where
  client : ClientState
  trace : List Event
deriving Repr, DecidableEq

/-- Fresh state: a newly constructed `ApiClient`, empty trace. -/
def initState : PState := ⟨⟨none, none⟩, []⟩

def emit (e : Event) (s : PState) : PState := { s with trace := s.trace ++ [e] }

def isGetCols : Event → Bool | .getCols => true | _ => false
def isCreateCol : Event → Bool | .createCol _ => true | _ => false
def isPostImages : Event → Bool | .postImages _ => true | _ => false
def isFetchRemote : Event → Bool | .fetchRemote _ => true | _ => false
def isPostBase64 : Event → Bool | .postBase64 _ => true | _ => false
def isDescribeCall : Event → Bool | .describeCall _ _ _ _ => true | _ => false
def isEnsureCall : Event → Bool | .ensureCall _ => true | _ => false

def countGet (tr : List Event) : Nat := (tr.filter isGetCols).length
def countCreate (tr : List Event) : Nat := (tr.filter isCreateCol).length
def countPost (tr : List Event) : Nat := (tr.filter isPostImages).length
def countFetch (tr : List Event) : Nat := (tr.filter isFetchRemote).length
def countPostB64 (tr : List Event) : Nat := (tr.filter isPostBase64).length
def countDescribe (tr : List Event) : Nat := (tr.filter isDescribeCall).length
def countEnsure (tr : List Event) : Nat := (tr.filter isEnsureCall).length

/-- Number of asset uploads in a trace (image POSTs plus base64 POSTs). -/
def countUploads (tr : List Event) : Nat := countPost tr + countPostB64 tr

/-- Response oracles of the external world.  Each field answers the n-th
call of its kind (n = number of earlier calls of that kind in the trace). -/
structure Env where
  /-- `fs.existsSync` -/
  fileExists : List Char → Bool
  /-- `GET /collections` response: `(collectionName, collectionId)` pairs -/
  getCollections : Nat → Except String (List (List Char × List Char))
  /-- `POST /collections` response: the new `collectionId` -/
  createCollection : Nat → Except String (List Char)
  /-- `POST /collections/:id/images` response -/
  postImages : Nat → Except String ImageUploadResult
  /-- `axios.get(imageUrl)` download outcome (bytes are not observed) -/
  fetchRemote : Nat → Except String Unit
  /-- `POST /collections/:id/base64` response -/
  postBase64 : Nat → Except String ImageUploadResult
  /-- response of the description collaborator, see `generateImageDescription` -/
  describe : Nat → Except String (List Char)

/-- `ApiClient.ensureCollection(name)`:

    if (this.collectionId && this.collectionName === name) return this.collectionId
    // GET /collections, find exact name; create when absent; memoize.

(`this.collectionId &&` is JS truthiness: `null` and `""` are falsy.) -/
def ensureCollection (env : Env) (name : List Char) (s0 : PState) :
    Except String (List Char) × PState :=
  let s := emit (.ensureCall name) s0
  let memoHit :=
    match s.client.collectionId with
    | some cid => !cid.isEmpty && s.client.collectionName == some name
    | none => false
  if memoHit then (.ok (s.client.collectionId.getD []), s)
  else
    let n := countGet s.trace
    let s := emit .getCols s
    match env.getCollections n with
    | .error e => (.error ("Failed to ensure collection: " ++ e), s)
    | .ok cols =>
      match cols.find? (fun c => c.1 == name) with
      | some c =>
        (.ok c.2, { s with client := ⟨some c.2, some name⟩ })
      | none =>
        let n := countCreate s.trace
        let s := emit (.createCol name) s
        match env.createCollection n with
        | .error e => (.error ("Failed to ensure collection: " ++ e), s)
        | .ok cid => (.ok cid, { s with client := ⟨some cid, some name⟩ })

/-- `ApiClient.uploadLocalImage(filePath, collectionName)`: resolves the
collection through `ensureCollection` (note: the orchestrator passes the
collection *id* as this `collectionName` argument), then POSTs the file. -/
def uploadLocalImage (env : Env) (filePath collName : List Char) (s0 : PState) :
    Except String ImageUploadResult × PState :=
  let s := emit (.uploadLocalCall filePath collName) s0
  match ensureCollection env collName s with
  | (.error e, s) => (.error ("Failed to upload local image: " ++ e), s)
  | (.ok cid, s) =>
    let n := countPost s.trace
    let s := emit (.postImages cid) s
    match env.postImages n with
    | .error e => (.error ("Failed to upload local image: " ++ e), s)
    | .ok r => (.ok r, s)

/-- `ApiClient.uploadBuffer(buffer, filename, contentType, collectionName)`:
shared upload path (filename/content type are not observed by any claim and
are elided). -/
def uploadBuffer (env : Env) (collName : List Char) (s0 : PState) :
    Except String ImageUploadResult × PState :=
  match ensureCollection env collName s0 with
  | (.error e, s) => (.error ("Failed to upload buffer: " ++ e), s)
  | (.ok cid, s) =>
    let n := countPost s.trace
    let s := emit (.postImages cid) s
    match env.postImages n with
    | .error e => (.error ("Failed to upload buffer: " ++ e), s)
    | .ok r => (.ok r, s)

/-- `ApiClient.uploadRemoteImage(imageUrl, collectionName)`: downloads the
bytes, then delegates to `uploadBuffer` (the filename derived from the URL
path segment is elided as unobserved). -/
def uploadRemoteImage (env : Env) (url collName : List Char) (s0 : PState) :
    Except String ImageUploadResult × PState :=
  let s := emit (.uploadRemoteCall url collName) s0
  let n := countFetch s.trace
  let s := emit (.fetchRemote url) s
  match env.fetchRemote n with
  | .error e => (.error ("Failed to upload remote image: " ++ e), s)
  | .ok _ => uploadBuffer env collName s

/-- `ApiClient.uploadBase64Image(base64Data, filename, collectionName)`
(the `base64-image-${Date.now()}.png` filename is elided as unobserved). -/
def uploadBase64Image (env : Env) (data collName : List Char) (s0 : PState) :
    Except String ImageUploadResult × PState :=
  let s := emit (.uploadBase64Call data collName) s0
  match ensureCollection env collName s with
  | (.error e, s) => (.error ("Failed to upload base64 image: " ++ e), s)
  | (.ok cid, s) =>
    let n := countPostB64 s.trace
    let s := emit (.postBase64 cid) s
    match env.postBase64 n with
    | .error e => (.error ("Failed to upload base64 image: " ++ e), s)
    | .ok r => (.ok r, s)

/-- Modelled from the spec: the orchestrator calls
`apiClient.generateImageDescription(collectionId, fileId, {beforeText,
afterText})`, but no `generateImageDescription` method is defined anywhere
in the repository (`client/src/image-describer.ts` is imported by the CLI
yet absent from the sources).  Per spec §4.4/§6 the description collaborator
turns an uploaded image plus optional before/after context into a short
text and may fail (a failure is per-item recoverable), so the call is
modelled as one more fallible oracle request. -/
def generateImageDescription (env : Env) (coll fileId before after : List Char)
    (s0 : PState) : Except String (List Char) × PState :=
  let n := countDescribe s0.trace
  let s := emit (.describeCall coll fileId before after) s0
  (env.describe n, s)

/-- One iteration of the `processLocalImages` loop body for match `m`
against the working text `result` (the `try`/`catch` around the body maps
any failure to "leave `result` unchanged and continue"). -/
def localStep (env : Env) (markdown : List Char) (collectionId basePath : List Char)
    (m : MD) (result : List Char) (s : PState) : List Char × PState :=
  let fullPath := resolveLocalPath basePath m.loc
  let s := emit (.fileCheck fullPath) s
  if !env.fileExists fullPath then (result, s)
  else
    match uploadLocalImage env fullPath collectionId s with
    | (.error _, s) => (result, s)
    | (.ok r, s) =>
      if needsDescription m.alt then
        let ctx := getSurroundingParagraphs markdown m.index
        match generateImageDescription env collectionId r.fileId ctx.1 ctx.2 s with
        | (.error _, s) => (result, s)
        | (.ok d, s) =>
          (jsReplaceFirst result (mkTag m.alt m.loc) (mkTag d r.fullUrl), s)
      else (jsReplaceFirst result (mkTag m.alt m.loc) (mkTag m.alt r.fullUrl), s)

/-- The fold of `processLocalImages` over its precomputed match list. -/
def localLoop (env : Env) (markdown : List Char) (collectionId basePath : List Char) :
    List MD → List Char → PState → List Char × PState
  | [], result, s => (result, s)
  | m :: ms, result, s =>
    let (result, s) := localStep env markdown collectionId basePath m result s
    localLoop env markdown collectionId basePath ms result s

/-- `processLocalImages(markdown, apiClient, collectionId, collectionName,
basePath, imageDescriber)`: matches are computed once against the text at
phase entry; each match is processed in order. -/
def processLocalImages (env : Env) (markdown : List Char)
    (collectionId basePath : List Char) (s : PState) : List Char × PState :=
  localLoop env markdown collectionId basePath (localMatches markdown) markdown s

/-- One iteration of the `processRemoteImages` loop body. -/
def remoteStep (env : Env) (markdown : List Char) (collectionId : List Char)
    (m : MD) (result : List Char) (s : PState) : List Char × PState :=
  match uploadRemoteImage env m.loc collectionId s with
  | (.error _, s) => (result, s)
  | (.ok r, s) =>
    if needsDescription m.alt then
      let ctx := getSurroundingParagraphs markdown m.index
      match generateImageDescription env collectionId r.fileId ctx.1 ctx.2 s with
      | (.error _, s) => (result, s)
      | (.ok d, s) =>
        (jsReplaceFirst result (mkTag m.alt m.loc) (mkTag d r.fullUrl), s)
    else (jsReplaceFirst result (mkTag m.alt m.loc) (mkTag m.alt r.fullUrl), s)

/-- The fold of `processRemoteImages` over its match list. -/
def remoteLoop (env : Env) (markdown : List Char) (collectionId : List Char) :
    List MD → List Char → PState → List Char × PState
  | [], result, s => (result, s)
  | m :: ms, result, s =>
    let (result, s) := remoteStep env markdown collectionId m result s
    remoteLoop env markdown collectionId ms result s

/-- `processRemoteImages(markdown, apiClient, collectionId, collectionName,
imageDescriber)`. -/
def processRemoteImages (env : Env) (markdown : List Char)
    (collectionId : List Char) (s : PState) : List Char × PState :=
  remoteLoop env markdown collectionId (remoteMatches markdown) markdown s

/-- One iteration of the `processBase64Images` loop body (the
`if (!base64Data) continue` guard is kept even though a matched locator is
never empty). -/
def base64Step (env : Env) (markdown : List Char) (collectionId : List Char)
    (m : MD) (result : List Char) (s : PState) : List Char × PState :=
  if m.loc.isEmpty then (result, s)
  else
    match uploadBase64Image env m.loc collectionId s with
    | (.error _, s) => (result, s)
    | (.ok r, s) =>
      if needsDescription m.alt then
        let ctx := getSurroundingParagraphs markdown m.index
        match generateImageDescription env collectionId r.fileId ctx.1 ctx.2 s with
        | (.error _, s) => (result, s)
        | (.ok d, s) =>
          (jsReplaceFirst result (mkTag m.alt m.loc) (mkTag d r.fullUrl), s)
      else (jsReplaceFirst result (mkTag m.alt m.loc) (mkTag m.alt r.fullUrl), s)

/-- The fold of `processBase64Images` over its match list. -/
def base64Loop (env : Env) (markdown : List Char) (collectionId : List Char) :
    List MD → List Char → PState → List Char × PState
  | [], result, s => (result, s)
  | m :: ms, result, s =>
    let (result, s) := base64Step env markdown collectionId m result s
    base64Loop env markdown collectionId ms result s

/-- `processBase64Images(markdown, apiClient, collectionId, collectionName,
imageDescriber)`. -/
def processBase64Images (env : Env) (markdown : List Char)
    (collectionId : List Char) (s : PState) : List Char × PState :=
  base64Loop env markdown collectionId (base64Matches markdown) markdown s

/-- `processMarkdown(markdown, apiClient, collectionName, basePath,
imageDescriber)`: resolve the collection (fatal on failure or on a
malformed id), then run the three phases, each over the current mutated
text.  Returns the final text and the full event trace. -/
def processMarkdown (env : Env) (markdown collectionName basePath : List Char) :
    Except String (List Char) × PState :=
  match ensureCollection env collectionName initState with
  | (.error e, s) => (.error e, s)
  | (.ok collectionId, s) =>
    if !uuidV4Test collectionId then
      (.error "Invalid collection ID format received", s)
    else
      let (t1, s) := processLocalImages env markdown collectionId basePath s
      let (t2, s) := processRemoteImages env t1 collectionId s
      let (t3, s) := processBase64Images env t2 collectionId s
      (.ok t3, s)

/-! ## A standard well-behaved store environment for the theorems

The asset store answers the initial `GET /collections` with one collection
whose name is the requested one and whose id is a well-formed UUIDv4 (so
collection resolution succeeds and the pipeline reaches its phases);
the remaining oracles answer from finite response lists, failing once the
list is exhausted. -/

/-- A well-formed UUIDv4 used as the resolved collection id. -/
def uuid1 : List Char := "aaaaaaaa-aaaa-4aaa-8aaa-aaaaaaaaaaaa".data

/-- The run's collection name. -/
def cname : List Char := "col".data

/-- Id the store mints for collections created by `POST /collections`. -/
def uuid2 : List Char := "c2".data

def stdEnv (fileEx : List Char → Bool)
    (posts : List (Except String ImageUploadResult))
    (fetches : List (Except String Unit))
    (descs : List (Except String (List Char))) : Env where
  fileExists := fileEx
  getCollections := fun n => if n = 0 then .ok [(cname, uuid1)] else .ok []
  createCollection := fun _ => .ok uuid2
  postImages := fun n => posts.getD n (.error "no response")
  fetchRemote := fun n => fetches.getD n (.error "no response")
  postBase64 := fun _ => .error "no response"
  describe := fun n => descs.getD n (.error "no response")

/-! ## Describer (`src/image-describer.ts`)

The `ImageDescriber` class reads an image, re-encodes it through `sharp`
(bounded to 800x800, JPEG quality 80), and sends the result to the OpenAI
vision oracle.  Buffers are modelled abstractly as byte lists; `sharp`,
`fs.readFileSync` and the OpenAI client are response oracles.  The
`data:image/jpeg;base64,` data-URI packaging of the payload is an injective
encoding and is elided: the oracle is modelled as receiving the buffer the
code packages. -/

/-- An image byte buffer. -/
def Buf := List Nat
deriving instance DecidableEq, Repr for Buf

/-- Observable calls made by the describer. -/
inductive DescEvent where
  /-- `fs.readFileSync(imagePath)` -/
  | readFileCall (path : List Char)
  /-- the `sharp(buffer).resize(...).jpeg(...).toBuffer()` pipeline -/
  | sharpCall (buf : Buf)
  /-- `openai.chat.completions.create` with the given image payload -/
  | openaiCall (buf : Buf)
deriving Repr, DecidableEq

/-- Oracles of the describer's collaborators. -/
structure DescEnv where
  readFile : List Char → Except String Buf
  sharp : Buf → Except String Buf
  openai : Buf → Except String (List Char)

/-- The punctuation class of `cleanDescription`'s `/[.!,;:]$/`. -/
def punctChars : List Char := ['.', '!', ',', ';', ':']

/-- `if (cleaned.length > 100) cleaned = cleaned.substring(0, 97) + "..."` -/
def truncate100 (cleaned : List Char) : List Char :=
  if 100 < cleaned.length then cleaned.take 97 ++ ['.', '.', '.'] else cleaned

/-- `cleaned.replace(/[.!,;:]$/, "")`: the anchored regex removes at most
one trailing punctuation character. -/
def stripTrailingPunct (cleaned : List Char) : List Char :=
  match cleaned.getLast? with
  | some c => if punctChars.contains c then cleaned.dropLast else cleaned
  | none => cleaned

/-- `ImageDescriber.cleanDescription(text)`:

    let cleaned = text.trim()
    if (cleaned.length > 100) cleaned = cleaned.substring(0, 97) + "..."
    cleaned = cleaned.replace(/[.!,;:]$/, "")
-/
def cleanDescription (text : List Char) : List Char :=
  stripTrailingPunct (truncate100 (trimChars text))

/-- `ImageDescriber.optimizeImageBuffer(buffer)`: run the `sharp` resize
pipeline; on any error the *original* buffer is returned
("Return original buffer if optimization fails"). -/
def optimizeImageBuffer (env : DescEnv) (buf : Buf) (tr : List DescEvent) :
    Buf × List DescEvent :=
  let tr := tr ++ [.sharpCall buf]
  match env.sharp buf with
  | .ok b => (b, tr)
  | .error _ => (buf, tr)

/-- `ImageDescriber.generateDescription(dataUri)`: send the payload to the
OpenAI oracle and clean the answer; any oracle failure yields `"Image"`. -/
def generateDescription (env : DescEnv) (payload : Buf) (tr : List DescEvent) :
    List Char × List DescEvent :=
  let tr := tr ++ [.openaiCall payload]
  match env.openai payload with
  | .ok t => (cleanDescription t, tr)
  | .error _ => ("Image".data, tr)

/-- `ImageDescriber.describeImageFile(imagePath)`: read the file, optimize
the buffer (`prepareImage`), and generate a description; any thrown error
is caught and `"Image"` returned. -/
def describeImageFile (env : DescEnv) (path : List Char) :
    List Char × List DescEvent :=
  let tr : List DescEvent := [.readFileCall path]
  match env.readFile path with
  | .error _ => ("Image".data, tr)
  | .ok buf =>
    let (opt, tr) := optimizeImageBuffer env buf tr
    generateDescription env opt tr

/-! ## Side-condition vocabulary for the parameterized theorems -/

/-- A *tame* string: free of the structural characters of the image-tag
grammar (`!`, `[`, `]`, `(`, `)`), of `$` (special in JS replacement
strings) and of newlines.  Realistic alt texts, separators, file names and
hosted URLs are tame; the hypotheses below use tameness to pin down the
scanner's match set exactly. -/
def tame (cs : List Char) : Bool :=
  cs.all (fun c => !(c == '!' || c == '[' || c == ']' ||
                     c == '(' || c == ')' || c == '$' || c == '\n'))

/-! ## Concrete run instances used by the counterexamples -/

/-- An upload result whose hosted URL is `u`. -/
def upl (u : List Char) : ImageUploadResult := ⟨"orig".data, "f1".data, ".png".data, u⟩

/-- Store environment for the C1 run: files exist, uploads succeed, hosted
URLs are ordinary `http://` store URLs. -/
def envC1 : Env :=
  stdEnv (fun _ => true)
    [.ok (upl "http://h/f.png".data), .ok (upl "http://h/g.png".data)] [.ok ()] []

def docC1 : List Char := "![a](p.png)".data

/-- Store environment for the C2 run: the first image POST is rejected, the
second succeeds. -/
def envC2 : Env := stdEnv (fun _ => true) [.error "upload rejected", .ok (upl "u".data)] [] []

def docC2 : List Char := "![a](p)x![a](p)".data

def envC3 : Env := stdEnv (fun _ => true) [.ok (upl "u".data)] [] []

def docC3 : List Char := "![a](p.png)".data

/-- Store environment for the C4 counterexample: the referenced file is
missing. -/
def envC4 : Env := stdEnv (fun _ => false) [] [] []

def docC4 : List Char := "![](p.png)".data

def envC5 : Env := stdEnv (fun _ => true) [.ok (upl "u".data)] [] []

def docC5 : List Char := "![a](p.png) ![](data:image/png;base64QQ==)".data

/-- Store environment for the C10 run: only `/d/e` exists on disk, uploads
succeed with ordinary store URLs. -/
def envC10 : Env :=
  stdEnv (fun p => p = "/d/e".data)
    [.ok (upl "http://h/f.png".data), .ok (upl "http://h/g.png".data)] [.ok ()] []

def docC10 : List Char := "![a](b![c)d](e)_![c)d](e)#".data

/-- The text produced by the C10 run. -/
def outC10 : List Char := "![a](b![c)d](http://h/g.png)_![c)d](e)#".data

/-- Describer environment for the C8 counterexample: reading succeeds and
the `sharp` re-encode pipeline fails (e.g. unrecognised image format). -/
def envC8 : DescEnv :=
  ⟨fun _ => .ok [1, 2, 3], fun _ => .error "sharp failure", fun _ => .ok "a cat".data⟩

/-! # Theorems

First the supporting lemmas about the scanner, the replacement primitive
and the context extractor; then one theorem per claim (with its witness or
counterexample). -/

theorem splitAtChar_append (c : Char) (a r : List Char) (h : c ∉ a) :
    splitAtChar c (a ++ c :: r) = some (a, r) := by
  induction a with
  | nil => simp [splitAtChar]
  | cons x xs ih =>
    have hx : x ≠ c := by
      intro e; exact h (e ▸ List.mem_cons_self x xs)
    have hxs : c ∉ xs := fun m => h (List.mem_cons_of_mem x m)
    simp [splitAtChar, hx, ih hxs]

theorem mkTag_append (alt loc r : List Char) :
    mkTag alt loc ++ r = '!' :: '[' :: (alt ++ ']' :: '(' :: (loc ++ ')' :: r)) := by
  simp [mkTag]

theorem mkTag_length (alt loc : List Char) :
    (mkTag alt loc).length = alt.length + loc.length + 5 := by
  simp [mkTag]; omega

theorem tagAt_mkTag (alt loc r : List Char) (h1 : ']' ∉ alt) (h2 : ')' ∉ loc)
    (h3 : loc ≠ []) : tagAt (mkTag alt loc ++ r) = some (alt, loc, r) := by
  rw [mkTag_append]
  unfold tagAt
  simp only [if_pos rfl]
  rw [splitAtChar_append ']' alt _ h1]
  simp only [if_pos rfl]
  rw [splitAtChar_append ')' loc r h2]
  simp [h3]

theorem tagAt_ne_bang (c : Char) (cs : List Char) (h : c ≠ '!') :
    tagAt (c :: cs) = none := by
  unfold tagAt
  cases cs with
  | nil => rfl
  | cons d ds => simp [h]

theorem tame_spec (cs : List Char) (h : tame cs = true) :
    '!' ∉ cs ∧ '[' ∉ cs ∧ ']' ∉ cs ∧ '(' ∉ cs ∧ ')' ∉ cs ∧ '$' ∉ cs ∧ '\n' ∉ cs := by
  simp only [tame, List.all_eq_true] at h
  refine ⟨fun m => ?_, fun m => ?_, fun m => ?_, fun m => ?_,
    fun m => ?_, fun m => ?_, fun m => ?_⟩ <;> simpa using h _ m

theorem scanAux_skip_exact (f : List Char → Bool) (xs ys : List Char) (p : Nat) :
    scanAux f (xs ++ ys) p xs.length = scanAux f ys (p + xs.length) 0 := by
  induction xs generalizing p with
  | nil => simp
  | cons x xs ih =>
    show scanAux f (x :: (xs ++ ys)) p (xs.length + 1) = _
    rw [scanAux]
    rw [ih (p + 1)]
    congr 1
    simp only [List.length_cons]
    omega

theorem scanAux_nobang (f : List Char → Bool) (cs : List Char) (p : Nat)
    (h : '!' ∉ cs) : scanAux f cs p 0 = [] := by
  induction cs generalizing p with
  | nil => rfl
  | cons c cs ih =>
    have hc : c ≠ '!' := by
      intro e; exact h (e ▸ List.mem_cons_self c cs)
    have hcs : '!' ∉ cs := fun m => h (List.mem_cons_of_mem c m)
    rw [scanAux, tagAt_ne_bang c cs hc]
    exact ih (p + 1) hcs

theorem scanAux_append_nobang (f : List Char → Bool) (xs ys : List Char) (p : Nat)
    (h : '!' ∉ xs) : scanAux f (xs ++ ys) p 0 = scanAux f ys (p + xs.length) 0 := by
  induction xs generalizing p with
  | nil => simp
  | cons x xs ih =>
    have hx : x ≠ '!' := by
      intro e; exact h (e ▸ List.mem_cons_self x xs)
    have hxs : '!' ∉ xs := fun m => h (List.mem_cons_of_mem x m)
    show scanAux f (x :: (xs ++ ys)) p 0 = _
    rw [scanAux, tagAt_ne_bang x (xs ++ ys) hx]
    show scanAux f (xs ++ ys) (p + 1) 0 = _
    rw [ih (p + 1) hxs]
    congr 1
    simp only [List.length_cons]
    omega

theorem scanAux_mkTag_true (f : List Char → Bool) (alt loc rest : List Char) (p : Nat)
    (h1 : ']' ∉ alt) (h2 : ')' ∉ loc) (h3 : loc ≠ []) (hf : f loc = true) :
    scanAux f (mkTag alt loc ++ rest) p 0 =
      ⟨alt, loc, p⟩ :: scanAux f rest (p + (alt.length + loc.length + 5)) 0 := by
  have hta := tagAt_mkTag alt loc rest h1 h2 h3
  rw [mkTag_append] at hta ⊢
  show scanAux f ('!' :: ('[' :: (alt ++ ']' :: '(' :: (loc ++ ')' :: rest)))) p 0 = _
  rw [scanAux, hta]
  show (if f loc then _ else _) = _
  rw [if_pos hf]
  have hsplit : '[' :: (alt ++ ']' :: '(' :: (loc ++ ')' :: rest)) =
      ('[' :: alt ++ ']' :: '(' :: loc ++ [')']) ++ rest := by
    simp
  have hlen : ('[' :: alt ++ ']' :: '(' :: loc ++ [')']).length =
      alt.length + loc.length + 4 := by
    simp; omega
  congr 1
  rw [hsplit, ← hlen, scanAux_skip_exact]
  congr 1
  rw [hlen]
  omega

theorem scanAux_mkTag_false (f : List Char → Bool) (alt loc rest : List Char) (p : Nat)
    (h1 : ']' ∉ alt) (h2 : ')' ∉ loc) (h3 : loc ≠ []) (hf : f loc = false)
    (hb1 : '!' ∉ alt) (hb2 : '!' ∉ loc) :
    scanAux f (mkTag alt loc ++ rest) p 0 =
      scanAux f rest (p + (alt.length + loc.length + 5)) 0 := by
  have hta := tagAt_mkTag alt loc rest h1 h2 h3
  rw [mkTag_append] at hta ⊢
  show scanAux f ('!' :: ('[' :: (alt ++ ']' :: '(' :: (loc ++ ')' :: rest)))) p 0 = _
  rw [scanAux, hta]
  show (if f loc then _ else _) = _
  rw [if_neg (by simp [hf])]
  have hsplit : '[' :: (alt ++ ']' :: '(' :: (loc ++ ')' :: rest)) =
      ('[' :: alt ++ ']' :: '(' :: loc ++ [')']) ++ rest := by
    simp
  have hnb : '!' ∉ ('[' :: alt ++ ']' :: '(' :: loc ++ [')']) := by
    intro hm
    rcases List.mem_append.mp hm with h1 | h4
    · rcases List.mem_cons.mp h1 with h | h2
      · exact absurd h (by decide)
      rcases List.mem_append.mp h2 with h | h3
      · exact hb1 h
      rcases List.mem_cons.mp h3 with h | h5
      · exact absurd h (by decide)
      rcases List.mem_cons.mp h5 with h | h
      · exact absurd h (by decide)
      · exact hb2 h
    · exact absurd (List.mem_singleton.mp h4) (by decide)
  rw [hsplit, scanAux_append_nobang _ _ _ _ hnb]
  congr 1
  have hlen : ('[' :: alt ++ ']' :: '(' :: loc ++ [')']).length =
      alt.length + loc.length + 4 := by
    simp; omega
  rw [hlen]
  omega

theorem isPrefixOf_append_self (pat r : List Char) :
    pat.isPrefixOf (pat ++ r) = true := by
  rw [List.isPrefixOf_iff_prefix]
  exact List.prefix_append pat r

theorem splitFirst_at_zero (pat rest : List Char) :
    splitFirst (pat ++ rest) pat = some ([], rest) := by
  rw [splitFirst.eq_def, if_pos (isPrefixOf_append_self pat rest)]
  rw [List.drop_left]

theorem expandDollar_no_dollar (m b a r : List Char) (h : '$' ∉ r) :
    expandDollar m b a r = r := by
  induction r with
  | nil => rfl
  | cons c rest ih =>
    have hc : c ≠ '$' := by
      intro e; exact h (e ▸ List.mem_cons_self c rest)
    have hrest : '$' ∉ rest := fun hm => h (List.mem_cons_of_mem c hm)
    rw [expandDollar.eq_def]
    simp only [hc, if_false]
    rw [ih hrest]

theorem jsReplaceFirst_at_zero (pat rest repl : List Char) (h : '$' ∉ repl) :
    jsReplaceFirst (pat ++ rest) pat repl = repl ++ rest := by
  rw [jsReplaceFirst, splitFirst_at_zero]
  show [] ++ expandDollar pat [] rest repl ++ rest = repl ++ rest
  rw [expandDollar_no_dollar _ _ _ _ h]
  simp

theorem splitNl_no_nl (cs : List Char) (h : '\n' ∉ cs) : splitNl cs = [cs] := by
  induction cs with
  | nil => rfl
  | cons c rest ih =>
    have hc : c ≠ '\n' := by
      intro e; exact h (e ▸ List.mem_cons_self c rest)
    have hrest : '\n' ∉ rest := fun hm => h (List.mem_cons_of_mem c hm)
    rw [splitNl, if_neg hc, ih hrest]

theorem getSurroundingParagraphs_single_line (cs : List Char) (m : Nat)
    (h : '\n' ∉ cs) : getSurroundingParagraphs cs m = ([], []) := by
  rw [getSurroundingParagraphs, splitNl_no_nl cs h]
  rcases Nat.lt_or_ge m (cs.length + 1) with hm | hm
  · rw [findLineIndex, findLineIndexAux, if_pos (by omega)]
    rfl
  · rw [findLineIndex, findLineIndexAux, if_neg (by omega), findLineIndexAux]
    rfl

theorem splitNl_ne_nil (cs : List Char) : splitNl cs ≠ [] := by
  cases cs with
  | nil => simp [splitNl]
  | cons c rest =>
    rw [splitNl]
    split
    · simp
    · cases h : splitNl rest <;> simp

theorem sumLens_cons (l : List Char) (ls : List (List Char)) :
    sumLens (l :: ls) = l.length + 1 + sumLens ls := by
  simp only [sumLens, List.map_cons, List.sum_cons]

theorem findLineIndexAux_last (ls : List (List Char)) :
    ∀ i cur m, cur + sumLens ls.dropLast ≤ m → m < cur + sumLens ls →
      findLineIndexAux ls i cur m = some (i + (ls.length - 1)) := by
  induction ls with
  | nil =>
    intro i cur m h1 h2
    have hz : sumLens ([] : List (List Char)) = 0 := by simp [sumLens]
    rw [hz] at h2
    simp at h1
    omega
  | cons l ls ih =>
    intro i cur m h1 h2
    cases ls with
    | nil =>
      have hz : sumLens ([] : List (List Char)) = 0 := by simp [sumLens]
      rw [sumLens_cons, hz] at h2
      rw [findLineIndexAux, if_pos (by omega)]
      simp
    | cons l2 ls2 =>
      have hdl : (l :: l2 :: ls2).dropLast = l :: (l2 :: ls2).dropLast := by
        simp
      rw [hdl, sumLens_cons] at h1
      rw [sumLens_cons] at h2
      have hge : sumLens (l2 :: ls2).dropLast ≥ 0 := Nat.zero_le _
      rw [findLineIndexAux, if_neg (by omega)]
      rw [ih (i + 1) (cur + l.length + 1) m (by omega) (by omega)]
      congr 1
      simp
      omega

theorem gsp_first_line (md : List Char) (m : Nat)
    (h : m < ((splitNl md).headD []).length + 1) :
    (getSurroundingParagraphs md m).1 = [] := by
  obtain ⟨l0, ls, he⟩ : ∃ l0 ls, splitNl md = l0 :: ls := by
    cases hs : splitNl md with
    | nil => exact absurd hs (splitNl_ne_nil md)
    | cons a b => exact ⟨a, b, rfl⟩
  rw [he] at h
  simp only [List.headD_cons] at h
  rw [getSurroundingParagraphs, he]
  rw [findLineIndex, findLineIndexAux, if_pos (by omega)]
  rfl

theorem gsp_last_line (md : List Char) (m : Nat)
    (h1 : sumLens (splitNl md).dropLast ≤ m) (h2 : m < sumLens (splitNl md)) :
    (getSurroundingParagraphs md m).2 = [] := by
  have hne := splitNl_ne_nil md
  have hlen : 1 ≤ (splitNl md).length := by
    cases hs : splitNl md with
    | nil => exact absurd hs hne
    | cons a b => simp
  rw [getSurroundingParagraphs]
  rw [findLineIndex, findLineIndexAux_last _ 0 0 m (by omega) (by omega)]
  have hdrop : (splitNl md).drop ((some ((0 : Nat) + ((splitNl md).length - 1))).getD 0 + 1) = [] := by
    simp only [Option.getD_some]
    apply List.drop_eq_nil_of_le
    omega
  rw [hdrop]
  rfl

/-! ## C7 -/

/-- C7: for every document and match offset, `getSurroundingParagraphs`
returns an empty `beforeText` when the match lies on the first line (offset
within the first line's extent) and an empty `afterText` when it lies on
the last line (offset at or past the start of the last line); moreover the
pair is computed componentwise by two searches over disjoint line ranges
(lines before the match line, lines after it), so each string is derived
independently of the other. -/
theorem c7_context_extractor_boundaries (md : List Char) (m : Nat) :
    (m < ((splitNl md).headD []).length + 1 → (getSurroundingParagraphs md m).1 = []) ∧
    (sumLens (splitNl md).dropLast ≤ m → m < sumLens (splitNl md) →
      (getSurroundingParagraphs md m).2 = []) ∧
    getSurroundingParagraphs md m =
      (trimChars (beforeSearch ((splitNl md).take (findLineIndex (splitNl md) m)).reverse),
       trimChars (afterSearch ((splitNl md).drop (findLineIndex (splitNl md) m + 1)))) :=
  ⟨gsp_first_line md m, gsp_last_line md m, rfl⟩

/-- Witness for C7 at the two-line document `"x\ny"`: offset 0 lies on the
first line, offset 2 on the last. -/
theorem c7_witness :
    (getSurroundingParagraphs "x\ny".data 0).1 = [] ∧
    (getSurroundingParagraphs "x\ny".data 2).2 = [] :=
  ⟨(c7_context_extractor_boundaries "x\ny".data 0).1 (by decide),
   (c7_context_extractor_boundaries "x\ny".data 2).2.1 (by decide) (by decide)⟩

/-! ## C9 -/

/-- C9 counterexample: for a 101-character oracle text the describer's
cleanup truncates to 97 characters plus `"..."` and then strips only one
trailing punctuation character, so the returned description still ends with
the punctuation character `'.'`, contradicting the claim's "no trailing
punctuation ... including in the truncated case". -/
theorem c9_counterexample :
    cleanDescription (List.replicate 101 'a') = List.replicate 97 'a' ++ ['.', '.'] ∧
    (cleanDescription (List.replicate 101 'a')).getLast? = some '.' ∧
    '.' ∈ punctChars := by
  refine ⟨by decide, by decide, by decide⟩

/-- C9 amended: the returned description is at most 100 characters, and
exactly one trailing punctuation character is stripped; in the truncated
case (trimmed oracle text longer than 100) the result is the 97-character
prefix followed by `".."` — i.e. it still ends in punctuation. -/
theorem c9_amended (t : List Char) :
    (cleanDescription t).length ≤ 100 ∧
    (100 < (trimChars t).length →
      cleanDescription t = (trimChars t).take 97 ++ ['.', '.']) := by
  have hdot : punctChars.contains '.' = true := by decide
  have htrunc : 100 < (trimChars t).length →
      cleanDescription t = (trimChars t).take 97 ++ ['.', '.'] := by
    intro h
    unfold cleanDescription truncate100
    rw [if_pos h]
    have he : (trimChars t).take 97 ++ ['.', '.', '.'] =
        ((trimChars t).take 97 ++ ['.', '.']) ++ ['.'] := by simp
    rw [he]
    unfold stripTrailingPunct
    rw [List.getLast?_concat]
    show (if punctChars.contains '.' = true then
        (((trimChars t).take 97 ++ ['.', '.']) ++ ['.']).dropLast
      else ((trimChars t).take 97 ++ ['.', '.']) ++ ['.']) = _
    rw [if_pos hdot, List.dropLast_concat]
  constructor
  · by_cases h : 100 < (trimChars t).length
    · rw [htrunc h]
      have h1 : ((trimChars t).take 97).length ≤ 97 := by
        simp [List.length_take]
      have h2 : ((trimChars t).take 97 ++ ['.', '.']).length =
          ((trimChars t).take 97).length + 2 := by simp
      omega
    · unfold cleanDescription truncate100
      rw [if_neg h]
      push_neg at h
      unfold stripTrailingPunct
      cases hL : (trimChars t).getLast? with
      | none => simpa using h
      | some x =>
        show (if punctChars.contains x = true then (trimChars t).dropLast
          else trimChars t).length ≤ 100
        by_cases hp : punctChars.contains x = true
        · rw [if_pos hp]
          have := List.length_dropLast (trimChars t)
          omega
        · rw [if_neg hp]
          simpa using h
  · exact htrunc

/-- Witness for C9 amended at a 101-character text. -/
theorem c9_witness :
    (cleanDescription (List.replicate 101 'b')).length ≤ 100 ∧
    cleanDescription (List.replicate 101 'b') =
      (trimChars (List.replicate 101 'b')).take 97 ++ ['.', '.'] :=
  ⟨(c9_amended (List.replicate 101 'b')).1,
   (c9_amended (List.replicate 101 'b')).2 (by decide)⟩

/-! ## C8 -/

/-- C8 counterexample: when the `sharp` re-encode pipeline fails,
`optimizeImageBuffer` falls back to the original buffer
("Return original buffer if optimization fails") and `describeImageFile`
sends exactly those original bytes to the vision oracle — contradicting
"the oracle never receives the original unbounded bytes". -/
theorem c8_counterexample :
    (describeImageFile envC8 "p.png".data).2 =
      [.readFileCall "p.png".data, .sharpCall [1, 2, 3], .openaiCall [1, 2, 3]] := by
  rfl

/-- C8 amended: the bounding step is always *attempted* — every
`describeImageFile` run that reads a buffer invokes `sharp` on it before
the oracle call — but when the re-encode fails the original buffer is sent
to the oracle as a fallback; only on `sharp` success does the oracle
receive the re-encoded bytes. -/
theorem c8_amended (env : DescEnv) (path : List Char) (buf opt : Buf)
    (hr : env.readFile path = .ok buf) :
    (env.sharp buf = .ok opt →
      (describeImageFile env path).2 =
        [.readFileCall path, .sharpCall buf, .openaiCall opt]) ∧
    (∀ e, env.sharp buf = .error e →
      (describeImageFile env path).2 =
        [.readFileCall path, .sharpCall buf, .openaiCall buf]) := by
  constructor
  · intro hs
    simp only [describeImageFile, optimizeImageBuffer, generateDescription, hr, hs]
    cases ho : env.openai opt <;> simp
  · intro e hs
    simp only [describeImageFile, optimizeImageBuffer, generateDescription, hr, hs]
    cases ho : env.openai buf <;> simp

/-- Witness for C8 amended at the concrete failing-sharp environment. -/
theorem c8_witness :
    (describeImageFile envC8 "q.png".data).2 =
      [.readFileCall "q.png".data, .sharpCall [1, 2, 3], .openaiCall [1, 2, 3]] :=
  (c8_amended envC8 "q.png".data [1, 2, 3] [] (by rfl)).2 "sharp failure" (by rfl)

/-! ## Locator-filter facts and single-tag scans -/

theorem localLoc_decomp (loc : List Char) (h : localLoc loc = true) :
    "http://".data.isPrefixOf loc = false ∧ "https://".data.isPrefixOf loc = false ∧
    "data:image/".data.isPrefixOf loc = false := by
  simp only [localLoc, Bool.and_eq_true, Bool.not_eq_true'] at h
  exact ⟨h.1.1, h.1.2, h.2⟩

theorem remoteLoc_false_of_localLoc (loc : List Char) (h : localLoc loc = true) :
    remoteLoc loc = false := by
  obtain ⟨h1, h2, _⟩ := localLoc_decomp loc h
  simp [remoteLoc, h1, h2]

theorem base64Loc_false_of_not_data (loc : List Char)
    (h : "data:image/".data.isPrefixOf loc = false) : base64Loc loc = false := by
  simp [base64Loc, h]

theorem base64Loc_false_of_localLoc (loc : List Char) (h : localLoc loc = true) :
    base64Loc loc = false :=
  base64Loc_false_of_not_data loc (localLoc_decomp loc h).2.2

theorem remoteLoc_of_http (u : List Char) (h : "http://".data.isPrefixOf u = true)
    (hlen : 7 < u.length) : remoteLoc u = true := by
  have hne : (u.drop 7).isEmpty = false := by
    cases hd : u.drop 7 with
    | nil =>
      have hlen0 := congrArg List.length hd
      simp [List.length_drop] at hlen0
      omega
    | cons a l => rfl
  simp [remoteLoc, h, hne]

theorem head_eq_of_http (u : List Char) (h : "http://".data.isPrefixOf u = true) :
    ∃ rest, u = 'h' :: rest := by
  cases u with
  | nil => simp [List.isPrefixOf] at h
  | cons c rest =>
    refine ⟨rest, ?_⟩
    have hsplit : ('h' == c && "ttp://".data.isPrefixOf rest) = true := h
    simp only [Bool.and_eq_true] at hsplit
    have hc : ('h' == c) = true := hsplit.1
    rw [show c = 'h' from (beq_iff_eq.mp hc).symm]

theorem not_data_prefix_of_http (u : List Char)
    (h : "http://".data.isPrefixOf u = true) :
    "data:image/".data.isPrefixOf u = false := by
  obtain ⟨rest, hrest⟩ := head_eq_of_http u h
  subst hrest
  rfl

theorem http_ne_nil (u : List Char) (h : "http://".data.isPrefixOf u = true) :
    u ≠ [] := by
  obtain ⟨rest, hrest⟩ := head_eq_of_http u h
  subst hrest
  simp

theorem localLoc_of_http_false (u : List Char)
    (h : "http://".data.isPrefixOf u = true) : localLoc u = false := by
  simp [localLoc, h]

theorem scan_single_true (f : List Char → Bool) (alt loc : List Char)
    (h1 : ']' ∉ alt) (h2 : ')' ∉ loc) (h3 : loc ≠ []) (hf : f loc = true) :
    scanAux f (mkTag alt loc) 0 0 = [⟨alt, loc, 0⟩] := by
  have h := scanAux_mkTag_true f alt loc [] 0 h1 h2 h3 hf
  rw [List.append_nil] at h
  rw [h]
  rfl

theorem scan_single_false (f : List Char → Bool) (alt loc : List Char)
    (h1 : ']' ∉ alt) (h2 : ')' ∉ loc) (h3 : loc ≠ []) (hf : f loc = false)
    (hb1 : '!' ∉ alt) (hb2 : '!' ∉ loc) :
    scanAux f (mkTag alt loc) 0 0 = [] := by
  have h := scanAux_mkTag_false f alt loc [] 0 h1 h2 h3 hf hb1 hb2
  rw [List.append_nil] at h
  rw [h]
  rfl

/-- The scans of a document consisting of one well-formed local image tag:
one local match at offset 0, no remote or base64 matches. -/
theorem single_local_tag_scans (alt loc : List Char) (hA : tame alt = true)
    (hL : tame loc = true) (hne : loc ≠ []) (hf : localLoc loc = true) :
    localMatches (mkTag alt loc) = [⟨alt, loc, 0⟩] ∧
    remoteMatches (mkTag alt loc) = [] ∧ base64Matches (mkTag alt loc) = [] := by
  obtain ⟨hbA, _, hrA, _, _, _, _⟩ := tame_spec alt hA
  obtain ⟨hbL, _, _, _, hpL, _, _⟩ := tame_spec loc hL
  refine ⟨scan_single_true _ alt loc hrA hpL hne hf, ?_, ?_⟩
  · exact scan_single_false _ alt loc hrA hpL hne
      (remoteLoc_false_of_localLoc loc hf) hbA hbL
  · exact scan_single_false _ alt loc hrA hpL hne
      (base64Loc_false_of_localLoc loc hf) hbA hbL

/-! ## Standard-environment execution facts -/

theorem uuid1_valid : uuidV4Test uuid1 = true := by decide

theorem ensure_first (fx : List Char → Bool)
    (posts : List (Except String ImageUploadResult))
    (fts : List (Except String Unit)) (ds : List (Except String (List Char))) :
    ensureCollection (stdEnv fx posts fts ds) cname initState =
      (.ok uuid1, ⟨⟨some uuid1, some cname⟩, [.ensureCall cname, .getCols]⟩) := rfl

/-! ## C6 -/

/-- C6 counterexample: the locator `file://h/x.png` carries the `file://`
scheme prefix, yet `resolveLocalPath` does not strip the scheme (the code
tests for `file:///` with three slashes): the locator is resolved relative
to `basePath` instead of becoming the scheme-stripped remainder. -/
theorem c6_counterexample :
    "file://".data.isPrefixOf "file://h/x.png".data = true ∧
    resolveLocalPath "/d".data "file://h/x.png".data = "/d/file://h/x.png".data ∧
    resolveLocalPath "/d".data "file://h/x.png".data ≠ "file://h/x.png".data.drop 7 := by
  refine ⟨by decide, by decide, by decide⟩

/-- C6 amended: only a locator starting with `file:///` (three slashes) has
that whole prefix removed and the remainder used verbatim as the resolved
path; any other locator is used as-is when absolute and otherwise resolved
against the input document's directory `basePath` (never against the
process working directory, which the resolution never consults).  The local
phase checks existence at exactly `resolveLocalPath basePath loc`, as the
`fileCheck` trace event of the run shows. -/
theorem c6_amended (basePath alt loc : List Char) (hA : tame alt = true)
    (hL : tame loc = true) (hne : loc ≠ []) (hf : localLoc loc = true) :
    ((processMarkdown (stdEnv (fun _ => false) [] [] [])
        (mkTag alt loc) cname basePath).2.trace.contains
      (.fileCheck (resolveLocalPath basePath loc)) = true) ∧
    (processMarkdown (stdEnv (fun _ => false) [] [] [])
        (mkTag alt loc) cname basePath).1 = .ok (mkTag alt loc) ∧
    ("file:///".data.isPrefixOf loc = true →
      resolveLocalPath basePath loc = loc.drop 8) ∧
    ("file:///".data.isPrefixOf loc = false → pathIsAbsolute loc = true →
      resolveLocalPath basePath loc = loc) ∧
    ("file:///".data.isPrefixOf loc = false → pathIsAbsolute loc = false →
      resolveLocalPath basePath loc = pathResolve basePath loc) := by
  obtain ⟨hm, hr, hb64⟩ := single_local_tag_scans alt loc hA hL hne hf
  have hrun : processMarkdown (stdEnv (fun _ => false) [] [] [])
      (mkTag alt loc) cname basePath =
      (.ok (mkTag alt loc),
       ⟨⟨some uuid1, some cname⟩,
        [.ensureCall cname, .getCols,
         .fileCheck (resolveLocalPath basePath loc)]⟩) := by
    rw [processMarkdown, ensure_first]
    simp only [uuid1_valid, Bool.not_true, Bool.false_eq_true, if_false,
      processLocalImages, hm, localLoop, localStep, stdEnv, Bool.not_false,
      if_true, processRemoteImages, hr, remoteLoop, processBase64Images, hb64,
      base64Loop]
    simp [emit]
  rw [hrun]
  refine ⟨by simp, rfl, ?_, ?_, ?_⟩
  · intro hp
    rw [resolveLocalPath, if_pos hp]
  · intro hp ha
    rw [resolveLocalPath, if_neg (by simp [hp]), if_pos ha]
  · intro hp ha
    rw [resolveLocalPath, if_neg (by simp [hp]), if_neg (by simp [ha])]

/-- Witness for C6 amended: a relative locator resolved against the
document directory. -/
theorem c6_witness :
    ((processMarkdown (stdEnv (fun _ => false) [] [] [])
        (mkTag "a".data "img/x.png".data) cname "/docs".data).2.trace.contains
      (.fileCheck (resolveLocalPath "/docs".data "img/x.png".data)) = true) ∧
    resolveLocalPath "/docs".data "img/x.png".data =
      pathResolve "/docs".data "img/x.png".data := by
  have h := c6_amended "/docs".data "a".data "img/x.png".data
    (by decide) (by decide) (by decide) (by decide)
  exact ⟨h.1, h.2.2.2.2 (by decide) (by decide)⟩

/-! ## Counting and execution lemmas for `stdEnv` runs -/

theorem countGet_append (a b : List Event) :
    countGet (a ++ b) = countGet a + countGet b := by
  simp [countGet, List.filter_append]

theorem countPost_append (a b : List Event) :
    countPost (a ++ b) = countPost a + countPost b := by
  simp [countPost, List.filter_append]

theorem countCreate_append (a b : List Event) :
    countCreate (a ++ b) = countCreate a + countCreate b := by
  simp [countCreate, List.filter_append]

theorem countFetch_append (a b : List Event) :
    countFetch (a ++ b) = countFetch a + countFetch b := by
  simp [countFetch, List.filter_append]

theorem cname_ne_uuid1 : (cname == uuid1) = false := by decide

/-- The second kind of `ensureCollection` call: inside an upload, the
collection *id* is passed as the name.  The memo misses (the memoized name
is the collection name, not the id), the id is not found among the store's
collection names, and a new collection named by the UUID is created. -/
theorem ensure_second (fx : List Char → Bool)
    (posts : List (Except String ImageUploadResult))
    (fts : List (Except String Unit)) (ds : List (Except String (List Char)))
    (tr : List Event) (hg : countGet tr = 1) :
    ensureCollection (stdEnv fx posts fts ds) uuid1 ⟨⟨some uuid1, some cname⟩, tr⟩ =
      (.ok uuid2, ⟨⟨some uuid2, some uuid1⟩,
        tr ++ [.ensureCall uuid1, .getCols, .createCol uuid1]⟩) := by
  rw [ensureCollection]
  simp only [emit]
  have hmemo : (!uuid1.isEmpty && (some cname == some uuid1)) = false := by decide
  simp only [hmemo, Bool.false_eq_true, if_false]
  have hcg : countGet (tr ++ [Event.ensureCall uuid1]) = 1 := by
    rw [countGet_append, hg]; rfl
  rw [hcg]
  have hgc : (stdEnv fx posts fts ds).getCollections 1 =
      .ok ([] : List (List Char × List Char)) := rfl
  rw [hgc]
  have hcc : ∀ n, (stdEnv fx posts fts ds).createCollection n = .ok uuid2 :=
    fun _ => rfl
  simp [emit, List.find?_nil, hcc]

/-- A memoized `ensureCollection` call: once an upload has installed
`(collectionId = uuid2, collectionName = uuid1)`, later upload calls that
again pass `uuid1` as the name hit the memo and return `uuid2` without any
server traffic. -/
theorem ensure_memo (fx : List Char → Bool)
    (posts : List (Except String ImageUploadResult))
    (fts : List (Except String Unit)) (ds : List (Except String (List Char)))
    (tr : List Event) :
    ensureCollection (stdEnv fx posts fts ds) uuid1 ⟨⟨some uuid2, some uuid1⟩, tr⟩ =
      (.ok uuid2, ⟨⟨some uuid2, some uuid1⟩, tr ++ [.ensureCall uuid1]⟩) := by
  rw [ensureCollection]
  simp only [emit]
  have hmemo : (!uuid2.isEmpty && (some uuid1 == some uuid1)) = true := by decide
  simp only [hmemo, if_true]
  rfl

theorem stdEnv_fileExists (fx : List Char → Bool)
    (posts : List (Except String ImageUploadResult))
    (fts : List (Except String Unit)) (ds : List (Except String (List Char)))
    (p : List Char) :
    (stdEnv fx posts fts ds).fileExists p = fx p := rfl

theorem stdEnv_postImages (fx : List Char → Bool)
    (posts : List (Except String ImageUploadResult))
    (fts : List (Except String Unit)) (ds : List (Except String (List Char)))
    (n : Nat) :
    (stdEnv fx posts fts ds).postImages n = posts.getD n (.error "no response") := rfl

theorem stdEnv_fetchRemote (fx : List Char → Bool)
    (posts : List (Except String ImageUploadResult))
    (fts : List (Except String Unit)) (ds : List (Except String (List Char)))
    (n : Nat) :
    (stdEnv fx posts fts ds).fetchRemote n = fts.getD n (.error "no response") := rfl

theorem stdEnv_describe (fx : List Char → Bool)
    (posts : List (Except String ImageUploadResult))
    (fts : List (Except String Unit)) (ds : List (Except String (List Char)))
    (n : Nat) :
    (stdEnv fx posts fts ds).describe n = ds.getD n (.error "no response") := rfl

/-- First upload of a run (client still memoizing the run's collection
name): the internal `ensureCollection(collectionId)` re-resolves and
creates the UUID-named collection, then the image POST is answered by the
first entry of `posts`. -/
theorem uploadLocal_first_ok (fx : List Char → Bool)
    (posts : List (Except String ImageUploadResult))
    (fts : List (Except String Unit)) (ds : List (Except String (List Char)))
    (path : List Char) (r : ImageUploadResult) (tr : List Event)
    (hg : countGet tr = 1) (hp : countPost tr = 0)
    (hr : posts.getD 0 (.error "no response") = .ok r) :
    uploadLocalImage (stdEnv fx posts fts ds) path uuid1 ⟨⟨some uuid1, some cname⟩, tr⟩ =
      (.ok r, ⟨⟨some uuid2, some uuid1⟩,
        tr ++ [.uploadLocalCall path uuid1, .ensureCall uuid1, .getCols,
               .createCol uuid1, .postImages uuid2]⟩) := by
  rw [uploadLocalImage]
  simp only [emit]
  have hg2 : countGet (tr ++ [Event.uploadLocalCall path uuid1]) = 1 := by
    rw [countGet_append, hg]; rfl
  rw [ensure_second fx posts fts ds _ hg2]
  simp only []
  have hp2 : countPost ((tr ++ [Event.uploadLocalCall path uuid1]) ++
      [Event.ensureCall uuid1, Event.getCols, Event.createCol uuid1]) = 0 := by
    rw [countPost_append, countPost_append, hp]; rfl
  rw [hp2, stdEnv_postImages, hr]
  simp [emit]

/-- Same first-upload shape with a failing image POST. -/
theorem uploadLocal_first_err (fx : List Char → Bool)
    (posts : List (Except String ImageUploadResult))
    (fts : List (Except String Unit)) (ds : List (Except String (List Char)))
    (path : List Char) (e : String) (tr : List Event)
    (hg : countGet tr = 1) (hp : countPost tr = 0)
    (hr : posts.getD 0 (.error "no response") = .error e) :
    uploadLocalImage (stdEnv fx posts fts ds) path uuid1 ⟨⟨some uuid1, some cname⟩, tr⟩ =
      (.error ("Failed to upload local image: " ++ e), ⟨⟨some uuid2, some uuid1⟩,
        tr ++ [.uploadLocalCall path uuid1, .ensureCall uuid1, .getCols,
               .createCol uuid1, .postImages uuid2]⟩) := by
  rw [uploadLocalImage]
  simp only [emit]
  have hg2 : countGet (tr ++ [Event.uploadLocalCall path uuid1]) = 1 := by
    rw [countGet_append, hg]; rfl
  rw [ensure_second fx posts fts ds _ hg2]
  simp only []
  have hp2 : countPost ((tr ++ [Event.uploadLocalCall path uuid1]) ++
      [Event.ensureCall uuid1, Event.getCols, Event.createCol uuid1]) = 0 := by
    rw [countPost_append, countPost_append, hp]; rfl
  rw [hp2, stdEnv_postImages, hr]
  simp [emit]

/-- A later upload: the client fields are `(uuid2, uuid1)`, so the internal
`ensureCollection(collectionId)` hits the memo; the POST is answered by the
`n`-th entry of `posts`. -/
theorem uploadLocal_memo_ok (fx : List Char → Bool)
    (posts : List (Except String ImageUploadResult))
    (fts : List (Except String Unit)) (ds : List (Except String (List Char)))
    (path : List Char) (r : ImageUploadResult) (n : Nat) (tr : List Event)
    (hp : countPost tr = n)
    (hr : posts.getD n (.error "no response") = .ok r) :
    uploadLocalImage (stdEnv fx posts fts ds) path uuid1 ⟨⟨some uuid2, some uuid1⟩, tr⟩ =
      (.ok r, ⟨⟨some uuid2, some uuid1⟩,
        tr ++ [.uploadLocalCall path uuid1, .ensureCall uuid1,
               .postImages uuid2]⟩) := by
  rw [uploadLocalImage]
  simp only [emit]
  rw [ensure_memo]
  simp only []
  have hp2 : countPost ((tr ++ [Event.uploadLocalCall path uuid1]) ++
      [Event.ensureCall uuid1]) = n := by
    rw [countPost_append, countPost_append, hp]; rfl
  rw [hp2, stdEnv_postImages, hr]
  simp [emit]

/-- A remote upload after a previous upload installed the memo: the image
is fetched, then the shared buffer-upload path performs the memoized
`ensureCollection` and its POST. -/
theorem uploadRemote_memo_ok (fx : List Char → Bool)
    (posts : List (Except String ImageUploadResult))
    (fts : List (Except String Unit)) (ds : List (Except String (List Char)))
    (url : List Char) (r : ImageUploadResult) (k n : Nat) (tr : List Event)
    (hk : countFetch tr = k) (hfr : fts.getD k (.error "no response") = .ok ())
    (hp : countPost tr = n)
    (hr : posts.getD n (.error "no response") = .ok r) :
    uploadRemoteImage (stdEnv fx posts fts ds) url uuid1 ⟨⟨some uuid2, some uuid1⟩, tr⟩ =
      (.ok r, ⟨⟨some uuid2, some uuid1⟩,
        tr ++ [.uploadRemoteCall url uuid1, .fetchRemote url, .ensureCall uuid1,
               .postImages uuid2]⟩) := by
  rw [uploadRemoteImage]
  simp only [emit]
  have hk2 : countFetch (tr ++ [Event.uploadRemoteCall url uuid1]) = k := by
    rw [countFetch_append, hk]; rfl
  rw [hk2, stdEnv_fetchRemote, hfr]
  rw [uploadBuffer, ensure_memo]
  simp only []
  have hp2 : countPost (((tr ++ [Event.uploadRemoteCall url uuid1]) ++
      [Event.fetchRemote url]) ++ [Event.ensureCall uuid1]) = n := by
    rw [countPost_append, countPost_append, countPost_append, hp]; rfl
  rw [hp2, stdEnv_postImages, hr]
  simp [emit]

theorem containsSub_append_middle (a b c : List Char) :
    containsSub (a ++ (b ++ c)) b = true := by
  induction a with
  | nil =>
    rw [containsSub.eq_def]
    simp only [List.nil_append]
    rw [if_pos (isPrefixOf_append_self b c)]
  | cons x xs ih =>
    rw [containsSub.eq_def]
    split
    · rfl
    · exact ih

/-! ## C1 -/

/-- C1 counterexample: a document with exactly one image reference (one
local match, no remote or base64 matches on the input) on which
`processMarkdown` performs two asset uploads: the local upload, and — after
the span is rewritten to the hosted `http://` URL — a second upload in the
remote phase, which re-fetches the hosted URL just uploaded. -/
theorem c1_counterexample :
    (localMatches docC1).length = 1 ∧
    remoteMatches docC1 = [] ∧ base64Matches docC1 = [] ∧
    countUploads (processMarkdown envC1 docC1 cname "/d".data).2.trace = 2 ∧
    (processMarkdown envC1 docC1 cname "/d".data).2.trace.contains
      (.fetchRemote "http://h/f.png".data) = true ∧
    (processMarkdown envC1 docC1 cname "/d".data).1 =
      .ok "![a](http://h/g.png)".data := by
  refine ⟨by decide, by decide, by decide, by decide, by decide, by rfl⟩

/-! ## C2 -/

/-- C2 counterexample: two byte-identical local references; the first one's
upload fails, the second succeeds.  First-occurrence replacement rewrites
the *first* (failed) reference's span with the hosted URL while the second
(successful) reference's span keeps its original text: the failed
reference's matched span (bytes 0–6 of input and output) is not
byte-identical.  Processing did continue (both references' POSTs appear in
the trace). -/
theorem c2_counterexample :
    localMatches docC2 = [⟨"a".data, "p".data, 0⟩, ⟨"a".data, "p".data, 8⟩] ∧
    (processMarkdown envC2 docC2 cname "/d".data).1 = .ok "![a](u)x![a](p)".data ∧
    countPost (processMarkdown envC2 docC2 cname "/d".data).2.trace = 2 ∧
    "![a](u)x![a](p)".data.take 7 ≠ docC2.take 7 ∧
    "![a](u)x![a](p)".data.drop 8 = docC2.drop 8 := by
  refine ⟨by decide, by rfl, by decide, by decide, by decide⟩

/-! ## C3 -/

/-- C3: on a document with a single local reference, `ensureCollection` is
invoked twice — once by the orchestrator with the collection name, and once
from inside `uploadLocalImage`, which receives the collection *id* as its
`collectionName` argument; that second call misses the memo and creates a
second collection named by the UUID (the `createCol uuid1` event). -/
theorem c3_ensure_invoked_per_upload :
    (localMatches docC3).length = 1 ∧
    countEnsure (processMarkdown envC3 docC3 cname "/d".data).2.trace = 2 ∧
    (processMarkdown envC3 docC3 cname "/d".data).2.trace.contains
      (.createCol uuid1) = true := by
  refine ⟨by decide, by decide, by decide⟩

/-! ## C4 -/

/-- C4 counterexample: a reference whose alt text is empty (so the claim's
trigger condition holds) but whose local file is missing: no description is
generated (no describe call in the trace), refuting the "if and only if". -/
theorem c4_counterexample :
    localMatches docC4 = [⟨[], "p.png".data, 0⟩] ∧
    needsDescription [] = true ∧
    countDescribe (processMarkdown envC4 docC4 cname "/d".data).2.trace = 0 ∧
    (processMarkdown envC4 docC4 cname "/d".data).1 = .ok docC4 := by
  refine ⟨by decide, by decide, by decide, by rfl⟩

/-! ## C5 -/

/-- C5 counterexample: a single-line document holding a well-formed local
reference and a malformed (comma-less) base64 tag.  The malformed tag's
locator passes no phase's filter and the tag's own text survives unchanged,
but the *line* containing it is not byte-identical: the other reference on
the same line was rewritten. -/
theorem c5_counterexample :
    localLoc "data:image/png;base64QQ==".data = false ∧
    remoteLoc "data:image/png;base64QQ==".data = false ∧
    base64Loc "data:image/png;base64QQ==".data = false ∧
    '\n' ∉ docC5 ∧
    (processMarkdown envC5 docC5 cname "/d".data).1 =
      .ok "![a](u) ![](data:image/png;base64QQ==)".data ∧
    containsSub "![a](u) ![](data:image/png;base64QQ==)".data
      "![](data:image/png;base64QQ==)".data = true ∧
    "![a](u) ![](data:image/png;base64QQ==)".data ≠ docC5 := by
  refine ⟨by decide, by decide, by decide, by decide, by rfl, by decide, by decide⟩

/-! ## C10 -/

/-- C10 counterexample: in the document
`![a](b![c)d](e)_![c)d](e)#` the local scanner matches the spans at offsets
0 (`![a](b![c)`, length 10) and 16 (`![c)d](e)`, length 9); the characters
`d](e)_` (offsets 10–15) and `#` (offset 25) lie outside every phase's
matched span (the remote and base64 scanners match nothing on the input).
With the first reference's file missing and the second upload succeeding,
first-occurrence replacement rewrites the *earlier* occurrence of the
second match's text — an occurrence straddling the first (unmodified) span
and the gap — destroying the protected gap characters `d](e)_`: no
decomposition of the output around the preserved gaps exists. -/
theorem c10_counterexample :
    localMatches docC10 = [⟨"a".data, "b![c".data, 0⟩, ⟨"c)d".data, "e".data, 16⟩] ∧
    remoteMatches docC10 = [] ∧ base64Matches docC10 = [] ∧
    docC10 = "![a](b![c)".data ++ "d](e)_".data ++ "![c)d](e)".data ++ "#".data ∧
    (processMarkdown envC10 docC10 cname "/d".data).1 = .ok outC10 ∧
    ¬ ∃ r1 r2 : List Char, outC10 = r1 ++ "d](e)_".data ++ (r2 ++ "#".data) := by
  refine ⟨by decide, by decide, by decide, by decide, by rfl, ?_⟩
  rintro ⟨r1, r2, h⟩
  have hc : containsSub outC10 "d](e)_".data = true := by
    rw [h]
    have := containsSub_append_middle r1 "d](e)_".data (r2 ++ "#".data)
    simpa using this
  have hf : containsSub outC10 "d](e)_".data = false := by decide
  rw [hf] at hc
  exact absurd hc (by simp)

/-! ## Further scanning/replacement helpers for the parameterized theorems -/

theorem not_mem_mkTag (c : Char) (alt loc : List Char)
    (h1 : c ≠ '!') (h2 : c ≠ '[') (h3 : c ≠ ']') (h4 : c ≠ '(') (h5 : c ≠ ')')
    (ha : c ∉ alt) (hl : c ∉ loc) : c ∉ mkTag alt loc := by
  intro hm
  simp only [mkTag, List.mem_append, List.mem_cons, List.mem_singleton,
    List.not_mem_nil] at hm
  rcases hm with ((h | h | h) | h | h | h) | h | h <;>
    first
      | exact h1 h | exact h2 h | exact h3 h | exact h4 h | exact h5 h
      | exact ha h | exact hl h | exact h

theorem dollar_not_mem_mkTag (alt loc : List Char) (ha : '$' ∉ alt)
    (hl : '$' ∉ loc) : '$' ∉ mkTag alt loc :=
  not_mem_mkTag '$' alt loc (by decide) (by decide) (by decide) (by decide)
    (by decide) ha hl

theorem newline_not_mem_mkTag (alt loc : List Char) (ha : '\n' ∉ alt)
    (hl : '\n' ∉ loc) : '\n' ∉ mkTag alt loc :=
  not_mem_mkTag '\n' alt loc (by decide) (by decide) (by decide) (by decide)
    (by decide) ha hl

theorem jsReplaceFirst_self (pat repl : List Char) (h : '$' ∉ repl) :
    jsReplaceFirst pat pat repl = repl := by
  have hz := jsReplaceFirst_at_zero pat [] repl h
  simpa using hz

theorem scanAux_single_true_at (f : List Char → Bool) (alt loc : List Char) (p : Nat)
    (h1 : ']' ∉ alt) (h2 : ')' ∉ loc) (h3 : loc ≠ []) (hf : f loc = true) :
    scanAux f (mkTag alt loc) p 0 = [⟨alt, loc, p⟩] := by
  have h := scanAux_mkTag_true f alt loc [] p h1 h2 h3 hf
  rw [List.append_nil] at h
  rw [h]
  rfl

theorem scanAux_single_false_at (f : List Char → Bool) (alt loc : List Char) (p : Nat)
    (h1 : ']' ∉ alt) (h2 : ')' ∉ loc) (h3 : loc ≠ []) (hf : f loc = false)
    (hb1 : '!' ∉ alt) (hb2 : '!' ∉ loc) :
    scanAux f (mkTag alt loc) p 0 = [] := by
  have h := scanAux_mkTag_false f alt loc [] p h1 h2 h3 hf hb1 hb2
  rw [List.append_nil] at h
  rw [h]
  rfl

/-- Scan of `pre ++ tag ++ post` where the embedded tag's locator fails the
filter and the surrounding text contains no `!`: no matches. -/
theorem scan_sandwich_false (f : List Char → Bool) (pre alt loc post : List Char)
    (hbp : '!' ∉ pre) (hbq : '!' ∉ post)
    (h1 : ']' ∉ alt) (h2 : ')' ∉ loc) (h3 : loc ≠ []) (hf : f loc = false)
    (hb1 : '!' ∉ alt) (hb2 : '!' ∉ loc) :
    scanAux f (pre ++ (mkTag alt loc ++ post)) 0 0 = [] := by
  rw [scanAux_append_nobang f pre _ 0 hbp]
  rw [scanAux_mkTag_false f alt loc post _ h1 h2 h3 hf hb1 hb2]
  exact scanAux_nobang f post _ hbq

/-- Scan of two well-formed tags separated by `!`-free text, both locators
passing the filter. -/
theorem scan_two_tags_true (f : List Char → Bool) (a1 l1 sep a2 l2 : List Char)
    (ha1 : ']' ∉ a1) (hl1 : ')' ∉ l1) (hn1 : l1 ≠ []) (hf1 : f l1 = true)
    (hsep : '!' ∉ sep)
    (ha2 : ']' ∉ a2) (hl2 : ')' ∉ l2) (hn2 : l2 ≠ []) (hf2 : f l2 = true) :
    scanAux f (mkTag a1 l1 ++ (sep ++ mkTag a2 l2)) 0 0 =
      [⟨a1, l1, 0⟩, ⟨a2, l2, a1.length + l1.length + 5 + sep.length⟩] := by
  rw [scanAux_mkTag_true f a1 l1 _ 0 ha1 hl1 hn1 hf1]
  rw [scanAux_append_nobang f sep _ _ hsep]
  rw [scanAux_single_true_at f a2 l2 _ ha2 hl2 hn2 hf2]
  simp

/-- Scan of the same two-tag shape with both locators failing the filter. -/
theorem scan_two_tags_false (f : List Char → Bool) (a1 l1 sep a2 l2 : List Char)
    (ha1 : ']' ∉ a1) (hl1 : ')' ∉ l1) (hn1 : l1 ≠ []) (hf1 : f l1 = false)
    (hb1 : '!' ∉ a1) (hb2 : '!' ∉ l1) (hsep : '!' ∉ sep)
    (ha2 : ']' ∉ a2) (hl2 : ')' ∉ l2) (hn2 : l2 ≠ []) (hf2 : f l2 = false)
    (hb3 : '!' ∉ a2) (hb4 : '!' ∉ l2) :
    scanAux f (mkTag a1 l1 ++ (sep ++ mkTag a2 l2)) 0 0 = [] := by
  rw [scanAux_mkTag_false f a1 l1 _ 0 ha1 hl1 hn1 hf1 hb1 hb2]
  rw [scanAux_append_nobang f sep _ _ hsep]
  rw [scanAux_single_false_at f a2 l2 _ ha2 hl2 hn2 hf2 hb3 hb4]

theorem splitFirst_nobang (xs pat b : List Char) (t : List Char)
    (hpat : pat = '!' :: t) (hxs : '!' ∉ xs) :
    splitFirst (xs ++ (pat ++ b)) pat = some (xs, b) := by
  induction xs with
  | nil =>
    simpa using splitFirst_at_zero pat b
  | cons c xs ih =>
    have hc : c ≠ '!' := by
      intro e; exact hxs (e ▸ List.mem_cons_self c xs)
    have hxs2 : '!' ∉ xs := fun hm => hxs (List.mem_cons_of_mem c hm)
    rw [splitFirst.eq_def]
    have hnp : pat.isPrefixOf (c :: xs ++ (pat ++ b)) = false := by
      rw [hpat]
      show (('!' == c) && _) = false
      have : ('!' == c) = false := by
        simp [beq_iff_eq]
        intro e; exact hc e.symm
      rw [this, Bool.false_and]
    rw [hnp]
    simp only [Bool.false_eq_true, if_false]
    show Option.map (fun p => (c :: p.1, p.2)) (splitFirst (xs ++ (pat ++ b)) pat) =
      some (c :: xs, b)
    rw [ih hxs2]
    rfl

/-- First-occurrence replacement where the text before the pattern starts
with `!` but contains no later `!`: the occurrence found is exactly the one
after that prefix (the pattern starts with `!` and cannot match at offset 0
by hypothesis, nor inside the `!`-free remainder). -/
theorem jsReplaceFirst_tail_nobang (aHead : Char) (aTail pat b repl : List Char)
    (t : List Char) (hpat : pat = '!' :: t) (hxs : '!' ∉ aTail)
    (h0 : pat.isPrefixOf (aHead :: (aTail ++ (pat ++ b))) = false)
    (hd : '$' ∉ repl) :
    jsReplaceFirst (aHead :: (aTail ++ (pat ++ b))) pat repl =
      (aHead :: aTail) ++ (repl ++ b) := by
  rw [jsReplaceFirst]
  rw [splitFirst.eq_def, h0]
  simp only [Bool.false_eq_true, if_false]
  rw [splitFirst_nobang aTail pat b t hpat hxs]
  show (aHead :: aTail) ++ expandDollar pat (aHead :: aTail) b repl ++ b = _
  rw [expandDollar_no_dollar _ _ _ _ hd]
  simp

/-- A complete pipeline run on a document in which no phase finds any match
returns the document byte-identical (and exits without a fatal error). -/
theorem run_no_matches (fx : List Char → Bool)
    (posts : List (Except String ImageUploadResult))
    (fts : List (Except String Unit)) (ds : List (Except String (List Char)))
    (md basePath : List Char)
    (h1 : localMatches md = []) (h2 : remoteMatches md = [])
    (h3 : base64Matches md = []) :
    processMarkdown (stdEnv fx posts fts ds) md cname basePath =
      (.ok md, ⟨⟨some uuid1, some cname⟩, [.ensureCall cname, .getCols]⟩) := by
  rw [processMarkdown, ensure_first]
  simp only [uuid1_valid, Bool.not_true, Bool.false_eq_true, if_false,
    processLocalImages, h1, localLoop, processRemoteImages, h2, remoteLoop,
    processBase64Images, h3, base64Loop]

theorem head_eq_of_data (u : List Char)
    (h : "data:image/".data.isPrefixOf u = true) : ∃ rest, u = 'd' :: rest := by
  cases u with
  | nil => simp [List.isPrefixOf] at h
  | cons c rest =>
    refine ⟨rest, ?_⟩
    have hsplit : ('d' == c && "ata:image/".data.isPrefixOf rest) = true := h
    simp only [Bool.and_eq_true] at hsplit
    have hc : ('d' == c) = true := hsplit.1
    rw [show c = 'd' from (beq_iff_eq.mp hc).symm]

theorem remoteLoc_false_of_data (u : List Char)
    (h : "data:image/".data.isPrefixOf u = true) : remoteLoc u = false := by
  obtain ⟨rest, hr⟩ := head_eq_of_data u h
  subst hr
  rfl

/-- The local phase on a single-tag document whose file exists, whose
upload succeeds, and whose alt text is not generic: the span is rewritten
to the hosted URL with the alt text kept. -/
theorem processLocal_single_ok_nodesc
    (posts : List (Except String ImageUploadResult))
    (fts : List (Except String Unit)) (ds : List (Except String (List Char)))
    (alt loc basePath : List Char) (r : ImageUploadResult)
    (hm : localMatches (mkTag alt loc) = [⟨alt, loc, 0⟩])
    (hr : posts.getD 0 (.error "no response") = .ok r)
    (hnd : needsDescription alt = false)
    (hdollar : '$' ∉ mkTag alt r.fullUrl) :
    processLocalImages (stdEnv (fun _ => true) posts fts ds) (mkTag alt loc) uuid1
        basePath ⟨⟨some uuid1, some cname⟩, [.ensureCall cname, .getCols]⟩ =
      (mkTag alt r.fullUrl,
       ⟨⟨some uuid2, some uuid1⟩,
        [.ensureCall cname, .getCols, .fileCheck (resolveLocalPath basePath loc),
         .uploadLocalCall (resolveLocalPath basePath loc) uuid1, .ensureCall uuid1,
         .getCols, .createCol uuid1, .postImages uuid2]⟩) := by
  rw [processLocalImages, hm, localLoop, localStep]
  simp only [emit, stdEnv_fileExists, Bool.not_true, Bool.false_eq_true, if_false]
  rw [uploadLocal_first_ok (fun _ => true) posts fts ds _ r _ (by rfl) (by rfl) hr]
  simp only [hnd, Bool.false_eq_true, if_false]
  rw [jsReplaceFirst_self _ _ hdollar]
  rw [localLoop]
  rfl

/-- The local phase on a single-tag document whose file exists, whose
upload succeeds, and whose (empty or generic) alt text triggers the
describe path; the describe call succeeds with text `d`. -/
theorem processLocal_single_ok_desc
    (posts : List (Except String ImageUploadResult))
    (fts : List (Except String Unit)) (ds : List (Except String (List Char)))
    (alt loc basePath d : List Char) (r : ImageUploadResult)
    (hm : localMatches (mkTag alt loc) = [⟨alt, loc, 0⟩])
    (hr : posts.getD 0 (.error "no response") = .ok r)
    (hnd : needsDescription alt = true)
    (hnl : '\n' ∉ mkTag alt loc)
    (hdesc : ds.getD 0 (.error "no response") = .ok d)
    (hdollar : '$' ∉ mkTag d r.fullUrl) :
    processLocalImages (stdEnv (fun _ => true) posts fts ds) (mkTag alt loc) uuid1
        basePath ⟨⟨some uuid1, some cname⟩, [.ensureCall cname, .getCols]⟩ =
      (mkTag d r.fullUrl,
       ⟨⟨some uuid2, some uuid1⟩,
        [.ensureCall cname, .getCols, .fileCheck (resolveLocalPath basePath loc),
         .uploadLocalCall (resolveLocalPath basePath loc) uuid1, .ensureCall uuid1,
         .getCols, .createCol uuid1, .postImages uuid2,
         .describeCall uuid1 r.fileId [] []]⟩) := by
  rw [processLocalImages, hm, localLoop, localStep]
  simp only [emit, stdEnv_fileExists, Bool.not_true, Bool.false_eq_true, if_false]
  rw [uploadLocal_first_ok (fun _ => true) posts fts ds _ r _ (by rfl) (by rfl) hr]
  simp only [hnd, if_true]
  rw [getSurroundingParagraphs_single_line _ 0 hnl]
  rw [generateImageDescription]
  simp only [emit]
  have hcd : (stdEnv (fun _ => true) posts fts ds).describe 0 = .ok d := by
    rw [stdEnv_describe, hdesc]
  have hn0 : countDescribe (([Event.ensureCall cname, Event.getCols] ++
      [Event.fileCheck (resolveLocalPath basePath loc)]) ++
      [Event.uploadLocalCall (resolveLocalPath basePath loc) uuid1,
       Event.ensureCall uuid1, Event.getCols, Event.createCol uuid1,
       Event.postImages uuid2]) = 0 := by rfl
  rw [hn0, hcd]
  simp only []
  rw [jsReplaceFirst_self _ _ hdollar]
  rw [localLoop]
  rfl

/-! ## C10 amended -/

/-- C10 amended: the general frame property fails (see the counterexample:
first-occurrence replacement can destroy characters outside every matched
span), but its "in particular" clause holds: a document in which no phase's
scanner finds any image reference is returned byte-identical, for every
store behaviour. -/
theorem c10_amended (fx : List Char → Bool)
    (posts : List (Except String ImageUploadResult))
    (fts : List (Except String Unit)) (ds : List (Except String (List Char)))
    (md basePath : List Char)
    (h1 : localMatches md = []) (h2 : remoteMatches md = [])
    (h3 : base64Matches md = []) :
    (processMarkdown (stdEnv fx posts fts ds) md cname basePath).1 = .ok md := by
  rw [run_no_matches fx posts fts ds md basePath h1 h2 h3]

/-- Witness for C10 amended on a tag-free document. -/
theorem c10_witness :
    (processMarkdown (stdEnv (fun _ => false) [] [] [])
        "plain text\nwith no tags".data cname "/d".data).1 =
      .ok "plain text\nwith no tags".data :=
  c10_amended (fun _ => false) [] [] [] "plain text\nwith no tags".data "/d".data
    (by decide) (by decide) (by decide)

/-! ## C5 amended -/

/-- C5 amended: a tag whose locator has the `data:image/` prefix but fails
the strict `data:<mime>;base64,<payload>` shape is matched by *no* phase
(its locator passes none of the three filters), and a document/line whose
only tag is such a malformed one is returned byte-identical with the run
completing without fatal error.  (When another well-formed reference shares
the line, only the malformed tag's own span — not the whole line — is
guaranteed unchanged, as the counterexample shows.) -/
theorem c5_amended (pre alt loc post : List Char)
    (hpre : tame pre = true) (hA : tame alt = true) (hpost : tame post = true)
    (hL : tame loc = true) (hne : loc ≠ [])
    (hdata : "data:image/".data.isPrefixOf loc = true)
    (hbad : base64Loc loc = false) :
    localLoc loc = false ∧ remoteLoc loc = false ∧
    localMatches (pre ++ (mkTag alt loc ++ post)) = [] ∧
    remoteMatches (pre ++ (mkTag alt loc ++ post)) = [] ∧
    base64Matches (pre ++ (mkTag alt loc ++ post)) = [] ∧
    (processMarkdown (stdEnv (fun _ => true) [] [] [])
        (pre ++ (mkTag alt loc ++ post)) cname "/d".data).1 =
      .ok (pre ++ (mkTag alt loc ++ post)) := by
  obtain ⟨hbPre, _, _, _, _, _, _⟩ := tame_spec pre hpre
  obtain ⟨hbA, _, hrA, _, _, _, _⟩ := tame_spec alt hA
  obtain ⟨hbPost, _, _, _, _, _, _⟩ := tame_spec post hpost
  obtain ⟨hbL, _, _, _, hpL, _, _⟩ := tame_spec loc hL
  have hlf : localLoc loc = false := by simp [localLoc, hdata]
  have hrf : remoteLoc loc = false := remoteLoc_false_of_data loc hdata
  have s1 : localMatches (pre ++ (mkTag alt loc ++ post)) = [] :=
    scan_sandwich_false _ pre alt loc post hbPre hbPost hrA hpL hne hlf hbA hbL
  have s2 : remoteMatches (pre ++ (mkTag alt loc ++ post)) = [] :=
    scan_sandwich_false _ pre alt loc post hbPre hbPost hrA hpL hne hrf hbA hbL
  have s3 : base64Matches (pre ++ (mkTag alt loc ++ post)) = [] :=
    scan_sandwich_false _ pre alt loc post hbPre hbPost hrA hpL hne hbad hbA hbL
  refine ⟨hlf, hrf, s1, s2, s3, ?_⟩
  rw [run_no_matches _ _ _ _ _ _ s1 s2 s3]

/-- Witness for C5 amended: the comma-less `data:image/png;base64QQ==`
locator embedded in plain text. -/
theorem c5_witness :
    (processMarkdown (stdEnv (fun _ => true) [] [] [])
        ("see: ".data ++ (mkTag [] "data:image/png;base64QQ==".data ++ " end".data))
        cname "/d".data).1 =
      .ok ("see: ".data ++ (mkTag [] "data:image/png;base64QQ==".data ++ " end".data)) :=
  (c5_amended "see: ".data [] "data:image/png;base64QQ==".data " end".data
    (by decide) (by decide) (by decide) (by decide) (by decide) (by decide)
    (by decide)).2.2.2.2.2

/-- Assemble a full run from a local-phase result whose output text has no
remote or base64 matches. -/
theorem run_assemble (fx : List Char → Bool)
    (posts : List (Except String ImageUploadResult))
    (fts : List (Except String Unit)) (ds : List (Except String (List Char)))
    (md basePath t1 : List Char) (s2 : PState)
    (hloc : processLocalImages (stdEnv fx posts fts ds) md uuid1 basePath
      ⟨⟨some uuid1, some cname⟩, [.ensureCall cname, .getCols]⟩ = (t1, s2))
    (h2 : remoteMatches t1 = []) (h3 : base64Matches t1 = []) :
    processMarkdown (stdEnv fx posts fts ds) md cname basePath = (.ok t1, s2) := by
  rw [processMarkdown, ensure_first]
  simp only [uuid1_valid, Bool.not_true, Bool.false_eq_true, if_false]
  rw [hloc]
  simp only []
  rw [processRemoteImages, h2, remoteLoop, processBase64Images, h3, base64Loop]

/-! ## C4 amended -/

/-- C4 amended: for a reference whose upload *succeeds*, a description is
generated if and only if the alt text is empty/whitespace or one of the
generic tokens — the describe call appears in the trace exactly when
`needsDescription` holds, the generated text replaces the alt text in that
case, and any other non-empty alt text is kept unchanged in the output.
(When the per-item processing fails before the upload — missing file,
rejected POST — no description is generated even for generic alt text, as
the counterexample shows.) -/
theorem c4_amended (alt loc u d : List Char)
    (hA : tame alt = true) (hL : tame loc = true) (hne : loc ≠ [])
    (hf : localLoc loc = true)
    (hU : tame u = true) (hUne : u ≠ []) (hUf : localLoc u = true)
    (hD : tame d = true) :
    (needsDescription alt = true →
      countDescribe (processMarkdown (stdEnv (fun _ => true) [.ok (upl u)] [] [.ok d])
          (mkTag alt loc) cname "/d".data).2.trace = 1 ∧
      (processMarkdown (stdEnv (fun _ => true) [.ok (upl u)] [] [.ok d])
          (mkTag alt loc) cname "/d".data).1 = .ok (mkTag d u)) ∧
    (needsDescription alt = false →
      countDescribe (processMarkdown (stdEnv (fun _ => true) [.ok (upl u)] [] [.ok d])
          (mkTag alt loc) cname "/d".data).2.trace = 0 ∧
      (processMarkdown (stdEnv (fun _ => true) [.ok (upl u)] [] [.ok d])
          (mkTag alt loc) cname "/d".data).1 = .ok (mkTag alt u)) := by
  obtain ⟨hbA, _, hrA, _, _, hdA, hnA⟩ := tame_spec alt hA
  obtain ⟨hbL, _, _, _, hpL, _, hnL⟩ := tame_spec loc hL
  obtain ⟨hbU, _, _, _, hpU, hdU, _⟩ := tame_spec u hU
  obtain ⟨hbD, _, hrD, _, _, hdD, _⟩ := tame_spec d hD
  have hm : localMatches (mkTag alt loc) = [⟨alt, loc, 0⟩] :=
    scan_single_true _ alt loc hrA hpL hne hf
  have hfull : (upl u).fullUrl = u := rfl
  constructor
  · intro hnd
    have hloc := processLocal_single_ok_desc [.ok (upl u)] [] [.ok d] alt loc
      "/d".data d (upl u) hm (by rfl) hnd
      (newline_not_mem_mkTag alt loc hnA hnL) (by rfl)
      (by rw [hfull]; exact dollar_not_mem_mkTag d u hdD hdU)
    rw [hfull] at hloc
    have h2 : remoteMatches (mkTag d u) = [] :=
      scan_single_false _ d u hrD hpU hUne (remoteLoc_false_of_localLoc u hUf)
        hbD hbU
    have h3 : base64Matches (mkTag d u) = [] :=
      scan_single_false _ d u hrD hpU hUne (base64Loc_false_of_localLoc u hUf)
        hbD hbU
    rw [run_assemble (fun _ => true) [.ok (upl u)] [] [.ok d] (mkTag alt loc)
      "/d".data (mkTag d u) _ hloc h2 h3]
    exact ⟨by rfl, by rfl⟩
  · intro hnd
    have hloc := processLocal_single_ok_nodesc [.ok (upl u)] [] [.ok d] alt loc
      "/d".data (upl u) hm (by rfl) hnd
      (by rw [hfull]; exact dollar_not_mem_mkTag alt u hdA hdU)
    rw [hfull] at hloc
    have h2 : remoteMatches (mkTag alt u) = [] :=
      scan_single_false _ alt u hrA hpU hUne (remoteLoc_false_of_localLoc u hUf)
        hbA hbU
    have h3 : base64Matches (mkTag alt u) = [] :=
      scan_single_false _ alt u hrA hpU hUne (base64Loc_false_of_localLoc u hUf)
        hbA hbU
    rw [run_assemble (fun _ => true) [.ok (upl u)] [] [.ok d] (mkTag alt loc)
      "/d".data (mkTag alt u) _ hloc h2 h3]
    exact ⟨by rfl, by rfl⟩

/-- Witness for C4 amended at a generic (`"image"`) and at a non-generic
(`"my chart"`) alt text. -/
theorem c4_witness :
    (countDescribe (processMarkdown
        (stdEnv (fun _ => true) [.ok (upl "u".data)] [] [.ok "a dog".data])
        (mkTag "image".data "p.png".data) cname "/d".data).2.trace = 1 ∧
      (processMarkdown (stdEnv (fun _ => true) [.ok (upl "u".data)] [] [.ok "a dog".data])
        (mkTag "image".data "p.png".data) cname "/d".data).1 =
        .ok (mkTag "a dog".data "u".data)) ∧
    (countDescribe (processMarkdown
        (stdEnv (fun _ => true) [.ok (upl "u".data)] [] [.ok "a dog".data])
        (mkTag "my chart".data "p.png".data) cname "/d".data).2.trace = 0 ∧
      (processMarkdown (stdEnv (fun _ => true) [.ok (upl "u".data)] [] [.ok "a dog".data])
        (mkTag "my chart".data "p.png".data) cname "/d".data).1 =
        .ok (mkTag "my chart".data "u".data)) :=
  ⟨(c4_amended "image".data "p.png".data "u".data "a dog".data (by decide)
      (by decide) (by decide) (by decide) (by decide) (by decide) (by decide)
      (by decide)).1 (by decide),
   (c4_amended "my chart".data "p.png".data "u".data "a dog".data (by decide)
      (by decide) (by decide) (by decide) (by decide) (by decide) (by decide)
      (by decide)).2 (by decide)⟩

/-- The remote phase on a single-tag document whose http locator is
fetched and re-uploaded successfully, with non-generic alt text. -/
theorem processRemote_single_ok_nodesc (fx : List Char → Bool)
    (posts : List (Except String ImageUploadResult))
    (fts : List (Except String Unit)) (ds : List (Except String (List Char)))
    (alt u1 : List Char) (r2 : ImageUploadResult) (tr : List Event) (k n : Nat)
    (hm : remoteMatches (mkTag alt u1) = [⟨alt, u1, 0⟩])
    (hk : countFetch tr = k) (hfr : fts.getD k (.error "no response") = .ok ())
    (hp : countPost tr = n) (hr : posts.getD n (.error "no response") = .ok r2)
    (hnd : needsDescription alt = false)
    (hdollar : '$' ∉ mkTag alt r2.fullUrl) :
    processRemoteImages (stdEnv fx posts fts ds) (mkTag alt u1) uuid1
        ⟨⟨some uuid2, some uuid1⟩, tr⟩ =
      (mkTag alt r2.fullUrl, ⟨⟨some uuid2, some uuid1⟩,
        tr ++ [.uploadRemoteCall u1 uuid1, .fetchRemote u1, .ensureCall uuid1,
               .postImages uuid2]⟩) := by
  rw [processRemoteImages, hm, remoteLoop, remoteStep]
  rw [uploadRemote_memo_ok fx posts fts ds u1 r2 k n tr hk hfr hp hr]
  simp only [hnd, Bool.false_eq_true, if_false]
  rw [jsReplaceFirst_self _ _ hdollar]
  rw [remoteLoop]

/-- Assemble a full run from a local-phase result, a remote-phase result on
the mutated text, and an empty base64 scan of the final text. -/
theorem run_assemble2 (fx : List Char → Bool)
    (posts : List (Except String ImageUploadResult))
    (fts : List (Except String Unit)) (ds : List (Except String (List Char)))
    (md basePath t1 t2 : List Char) (s2 s3 : PState)
    (hloc : processLocalImages (stdEnv fx posts fts ds) md uuid1 basePath
      ⟨⟨some uuid1, some cname⟩, [.ensureCall cname, .getCols]⟩ = (t1, s2))
    (hrem : processRemoteImages (stdEnv fx posts fts ds) t1 uuid1 s2 = (t2, s3))
    (h3 : base64Matches t2 = []) :
    processMarkdown (stdEnv fx posts fts ds) md cname basePath = (.ok t2, s3) := by
  rw [processMarkdown, ensure_first]
  simp only [uuid1_valid, Bool.not_true, Bool.false_eq_true, if_false]
  rw [hloc]
  simp only []
  rw [hrem]
  simp only []
  rw [processBase64Images, h3, base64Loop]

/-! ## C1 amended -/

/-- C1 amended: remote and base64 references are uploaded at most once per
phase pass, but a *local* reference whose upload succeeds is uploaded
twice: its span is rewritten to the hosted `http(s)` URL, the remote phase
re-scans the mutated text, matches the rewritten span, re-fetches the
hosted URL just produced and uploads its bytes again.  Concretely, a
document holding exactly one local reference whose hosted URL is an http
URL with a nonempty remainder after the scheme (as every real store URL
is) yields exactly two asset uploads, the second preceded by a fetch of
the first upload's hosted URL. -/
theorem c1_amended (alt loc u1 u2 : List Char)
    (hA : tame alt = true) (hL : tame loc = true) (hne : loc ≠ [])
    (hf : localLoc loc = true) (hnd : needsDescription alt = false)
    (hU1 : tame u1 = true) (h1h : "http://".data.isPrefixOf u1 = true)
    (h1len : 7 < u1.length)
    (hU2 : tame u2 = true) (h2h : "http://".data.isPrefixOf u2 = true) :
    (localMatches (mkTag alt loc)).length = 1 ∧
    countUploads (processMarkdown
        (stdEnv (fun _ => true) [.ok (upl u1), .ok (upl u2)] [.ok ()] [])
        (mkTag alt loc) cname "/d".data).2.trace = 2 ∧
    (processMarkdown (stdEnv (fun _ => true) [.ok (upl u1), .ok (upl u2)] [.ok ()] [])
        (mkTag alt loc) cname "/d".data).2.trace.contains (.fetchRemote u1) = true ∧
    (processMarkdown (stdEnv (fun _ => true) [.ok (upl u1), .ok (upl u2)] [.ok ()] [])
        (mkTag alt loc) cname "/d".data).1 = .ok (mkTag alt u2) := by
  obtain ⟨hbA, _, hrA, _, _, hdA, _⟩ := tame_spec alt hA
  obtain ⟨_, _, _, _, hpL, _, _⟩ := tame_spec loc hL
  obtain ⟨hbU1, _, _, _, hpU1, hdU1, _⟩ := tame_spec u1 hU1
  obtain ⟨hbU2, _, _, _, hpU2, hdU2, _⟩ := tame_spec u2 hU2
  have hm : localMatches (mkTag alt loc) = [⟨alt, loc, 0⟩] :=
    scan_single_true _ alt loc hrA hpL hne hf
  have hfull1 : (upl u1).fullUrl = u1 := rfl
  have hfull2 : (upl u2).fullUrl = u2 := rfl
  have hloc := processLocal_single_ok_nodesc [.ok (upl u1), .ok (upl u2)] [.ok ()]
    [] alt loc "/d".data (upl u1) hm (by rfl) hnd
    (by rw [hfull1]; exact dollar_not_mem_mkTag alt u1 hdA hdU1)
  rw [hfull1] at hloc
  have hmr : remoteMatches (mkTag alt u1) = [⟨alt, u1, 0⟩] :=
    scan_single_true _ alt u1 hrA hpU1 (http_ne_nil u1 h1h)
      (remoteLoc_of_http u1 h1h h1len)
  have hrem := processRemote_single_ok_nodesc (fun _ => true)
    [.ok (upl u1), .ok (upl u2)] [.ok ()] [] alt u1 (upl u2)
    [.ensureCall cname, .getCols,
     .fileCheck (resolveLocalPath "/d".data loc),
     .uploadLocalCall (resolveLocalPath "/d".data loc) uuid1, .ensureCall uuid1,
     .getCols, .createCol uuid1, .postImages uuid2] 0 1 hmr
    (by rfl) (by rfl) (by rfl) (by rfl) hnd
    (by rw [hfull2]; exact dollar_not_mem_mkTag alt u2 hdA hdU2)
  rw [hfull2] at hrem
  have h3 : base64Matches (mkTag alt u2) = [] :=
    scan_single_false _ alt u2 hrA hpU2 (http_ne_nil u2 h2h)
      (base64Loc_false_of_not_data u2 (not_data_prefix_of_http u2 h2h)) hbA hbU2
  rw [show (localMatches (mkTag alt loc)).length = 1 from by rw [hm]; rfl]
  rw [run_assemble2 (fun _ => true) [.ok (upl u1), .ok (upl u2)] [.ok ()] []
    (mkTag alt loc) "/d".data (mkTag alt u1) (mkTag alt u2) _ _ hloc hrem h3]
  refine ⟨rfl, by rfl, by simp, by rfl⟩

/-- Witness for C1 amended at concrete inputs with ordinary store URLs. -/
theorem c1_witness :
    (localMatches (mkTag "a".data "p.png".data)).length = 1 ∧
    countUploads (processMarkdown
        (stdEnv (fun _ => true)
          [.ok (upl "http://h/f.png".data), .ok (upl "http://h/g.png".data)]
          [.ok ()] []) (mkTag "a".data "p.png".data) cname "/d".data).2.trace = 2 ∧
    (processMarkdown (stdEnv (fun _ => true)
        [.ok (upl "http://h/f.png".data), .ok (upl "http://h/g.png".data)]
        [.ok ()] []) (mkTag "a".data "p.png".data) cname "/d".data).2.trace.contains
      (.fetchRemote "http://h/f.png".data) = true ∧
    (processMarkdown (stdEnv (fun _ => true)
        [.ok (upl "http://h/f.png".data), .ok (upl "http://h/g.png".data)]
        [.ok ()] []) (mkTag "a".data "p.png".data) cname "/d".data).1 =
      .ok (mkTag "a".data "http://h/g.png".data) :=
  c1_amended "a".data "p.png".data "http://h/f.png".data "http://h/g.png".data
    (by decide) (by decide) (by decide) (by decide) (by decide) (by decide)
    (by decide) (by decide) (by decide) (by decide)

theorem not_mem_tagTail (c : Char) (alt loc extra : List Char)
    (h2 : c ≠ '[') (h3 : c ≠ ']') (h4 : c ≠ '(') (h5 : c ≠ ')')
    (ha : c ∉ alt) (hl : c ∉ loc) (he : c ∉ extra) :
    c ∉ ('[' :: (alt ++ ']' :: '(' :: (loc ++ ')' :: extra))) := by
  intro hm
  simp only [List.mem_cons, List.mem_append] at hm
  rcases hm with h | h | h | h | h | h | h <;>
    first
      | exact h2 h | exact h3 h | exact h4 h | exact h5 h
      | exact ha h | exact hl h | exact he h

theorem mkTag_cons (alt loc : List Char) :
    mkTag alt loc = '!' :: ('[' :: alt ++ ']' :: '(' :: loc ++ [')']) := by
  simp [mkTag]

/-- The local phase on a two-reference document whose *first* file is
missing and whose second upload succeeds: the first (failed) span is left
untouched in place, the second reference is still processed, and —
because `String.replace` targets the first occurrence — the second match's
own span is replaced here only because its text does not occur earlier
(hypothesis `hnp`). -/
theorem processLocal_two_fail_first
    (posts : List (Except String ImageUploadResult))
    (fts : List (Except String Unit)) (ds : List (Except String (List Char)))
    (a1 l1 sep a2 l2 basePath : List Char) (r : ImageUploadResult)
    (hm2 : localMatches (mkTag a1 l1 ++ (sep ++ mkTag a2 l2)) =
      [⟨a1, l1, 0⟩, ⟨a2, l2, a1.length + l1.length + 5 + sep.length⟩])
    (hbne : (resolveLocalPath basePath l2 == resolveLocalPath basePath l1) = false)
    (hr : posts.getD 0 (.error "no response") = .ok r)
    (hnd : needsDescription a2 = false)
    (hb1 : '!' ∉ a1) (hb2 : '!' ∉ l1) (hbs : '!' ∉ sep)
    (hnp : (mkTag a2 l2).isPrefixOf
      ('!' :: (('[' :: (a1 ++ ']' :: '(' :: (l1 ++ ')' :: sep))) ++
        (mkTag a2 l2 ++ []))) = false)
    (hdollar : '$' ∉ mkTag a2 r.fullUrl) :
    processLocalImages
        (stdEnv (fun p => !(p == resolveLocalPath basePath l1)) posts fts ds)
        (mkTag a1 l1 ++ (sep ++ mkTag a2 l2)) uuid1 basePath
        ⟨⟨some uuid1, some cname⟩, [.ensureCall cname, .getCols]⟩ =
      (mkTag a1 l1 ++ (sep ++ mkTag a2 r.fullUrl),
       ⟨⟨some uuid2, some uuid1⟩,
        [.ensureCall cname, .getCols,
         .fileCheck (resolveLocalPath basePath l1),
         .fileCheck (resolveLocalPath basePath l2),
         .uploadLocalCall (resolveLocalPath basePath l2) uuid1, .ensureCall uuid1,
         .getCols, .createCol uuid1, .postImages uuid2]⟩) := by
  have hsh : mkTag a1 l1 ++ (sep ++ mkTag a2 l2) =
      '!' :: (('[' :: (a1 ++ ']' :: '(' :: (l1 ++ ')' :: sep))) ++
        (mkTag a2 l2 ++ [])) := by
    rw [mkTag_append a1 l1 (sep ++ mkTag a2 l2)]
    simp
  rw [processLocalImages, hm2, localLoop, localStep]
  simp only [emit, stdEnv_fileExists, beq_self_eq_true, Bool.not_true,
    Bool.not_false, if_true]
  rw [localLoop, localStep]
  simp only [emit, stdEnv_fileExists, hbne, Bool.not_false, Bool.not_true,
    Bool.false_eq_true, if_false]
  rw [uploadLocal_first_ok _ posts fts ds _ r _ (by rfl) (by rfl) hr]
  simp only [hnd, Bool.false_eq_true, if_false]
  have hxs : '!' ∉ ('[' :: (a1 ++ ']' :: '(' :: (l1 ++ ')' :: sep))) :=
    not_mem_tagTail '!' a1 l1 sep (by decide) (by decide) (by decide) (by decide)
      hb1 hb2 hbs
  rw [hsh, jsReplaceFirst_tail_nobang '!' _ _ [] _
    ('[' :: a2 ++ ']' :: '(' :: l2 ++ [')']) (mkTag_cons a2 l2) hxs hnp hdollar]
  rw [localLoop]
  simp [mkTag]

/-! ## C2 amended -/

/-- C2 amended: a reference whose per-item step fails (here: missing local
file) keeps its matched span byte-identical in place, *provided* no
byte-identical matched span elsewhere is successfully replaced first (with
identical duplicate tags, first-occurrence replacement can rewrite the
failed earlier occurrence instead — see the counterexample); processing
continues to every remaining reference in the same phase and to the later
phases rather than aborting.  Here the first reference's file is missing:
its span survives verbatim as the output's prefix, while the second
reference is checked, uploaded and rewritten. -/
theorem c2_amended (a1 l1 sep a2 l2 u : List Char)
    (hA1 : tame a1 = true) (hL1 : tame l1 = true) (hn1 : l1 ≠ [])
    (hf1 : localLoc l1 = true)
    (hS : tame sep = true)
    (hA2 : tame a2 = true) (hL2 : tame l2 = true) (hn2 : l2 ≠ [])
    (hf2 : localLoc l2 = true) (hnd : needsDescription a2 = false)
    (hU : tame u = true) (hUne : u ≠ []) (hUf : localLoc u = true)
    (hbne : (resolveLocalPath "/d".data l2 == resolveLocalPath "/d".data l1) = false)
    (hnp : (mkTag a2 l2).isPrefixOf
      ('!' :: (('[' :: (a1 ++ ']' :: '(' :: (l1 ++ ')' :: sep))) ++
        (mkTag a2 l2 ++ []))) = false) :
    (processMarkdown (stdEnv (fun p => !(p == resolveLocalPath "/d".data l1))
        [.ok (upl u)] [] []) (mkTag a1 l1 ++ (sep ++ mkTag a2 l2)) cname
        "/d".data).1 = .ok (mkTag a1 l1 ++ (sep ++ mkTag a2 u)) ∧
    (processMarkdown (stdEnv (fun p => !(p == resolveLocalPath "/d".data l1))
        [.ok (upl u)] [] []) (mkTag a1 l1 ++ (sep ++ mkTag a2 l2)) cname
        "/d".data).2.trace.contains
      (.fileCheck (resolveLocalPath "/d".data l2)) = true ∧
    countPost (processMarkdown (stdEnv (fun p => !(p == resolveLocalPath "/d".data l1))
        [.ok (upl u)] [] []) (mkTag a1 l1 ++ (sep ++ mkTag a2 l2)) cname
        "/d".data).2.trace = 1 := by
  obtain ⟨hbA1, _, hrA1, _, _, hdA1, _⟩ := tame_spec a1 hA1
  obtain ⟨hbL1, _, _, _, hpL1, _, _⟩ := tame_spec l1 hL1
  obtain ⟨hbS, _, _, _, _, _, _⟩ := tame_spec sep hS
  obtain ⟨hbA2, _, hrA2, _, _, hdA2, _⟩ := tame_spec a2 hA2
  obtain ⟨hbL2, _, _, _, hpL2, _, _⟩ := tame_spec l2 hL2
  obtain ⟨hbU, _, _, _, hpU, hdU, _⟩ := tame_spec u hU
  have hm2 : localMatches (mkTag a1 l1 ++ (sep ++ mkTag a2 l2)) =
      [⟨a1, l1, 0⟩, ⟨a2, l2, a1.length + l1.length + 5 + sep.length⟩] :=
    scan_two_tags_true _ a1 l1 sep a2 l2 hrA1 hpL1 hn1 hf1 hbS hrA2 hpL2 hn2 hf2
  have hfull : (upl u).fullUrl = u := rfl
  have hloc := processLocal_two_fail_first [.ok (upl u)] [] [] a1 l1 sep a2 l2
    "/d".data (upl u) hm2 hbne (by rfl) hnd hbA1 hbL1 hbS hnp
    (by rw [hfull]; exact dollar_not_mem_mkTag a2 u hdA2 hdU)
  rw [hfull] at hloc
  have h2 : remoteMatches (mkTag a1 l1 ++ (sep ++ mkTag a2 u)) = [] :=
    scan_two_tags_false _ a1 l1 sep a2 u hrA1 hpL1 hn1
      (remoteLoc_false_of_localLoc l1 hf1) hbA1 hbL1 hbS hrA2 hpU hUne
      (remoteLoc_false_of_localLoc u hUf) hbA2 hbU
  have h3 : base64Matches (mkTag a1 l1 ++ (sep ++ mkTag a2 u)) = [] :=
    scan_two_tags_false _ a1 l1 sep a2 u hrA1 hpL1 hn1
      (base64Loc_false_of_localLoc l1 hf1) hbA1 hbL1 hbS hrA2 hpU hUne
      (base64Loc_false_of_localLoc u hUf) hbA2 hbU
  rw [run_assemble _ [.ok (upl u)] [] [] _ "/d".data _ _ hloc h2 h3]
  refine ⟨rfl, by simp, by rfl⟩

/-- Witness for C2 amended: `![pic](a.png)` (file missing) followed by
`![two](b.png)` (uploaded); the failed span survives byte-identical. -/
theorem c2_witness :
    (processMarkdown (stdEnv
        (fun p => !(p == resolveLocalPath "/d".data "a.png".data))
        [.ok (upl "u".data)] [] [])
        (mkTag "pic".data "a.png".data ++ (" ".data ++ mkTag "two".data "b.png".data))
        cname "/d".data).1 =
      .ok (mkTag "pic".data "a.png".data ++ (" ".data ++ mkTag "two".data "u".data)) ∧
    (processMarkdown (stdEnv
        (fun p => !(p == resolveLocalPath "/d".data "a.png".data))
        [.ok (upl "u".data)] [] [])
        (mkTag "pic".data "a.png".data ++ (" ".data ++ mkTag "two".data "b.png".data))
        cname "/d".data).2.trace.contains
      (.fileCheck (resolveLocalPath "/d".data "b.png".data)) = true :=
  ⟨(c2_amended "pic".data "a.png".data " ".data "two".data "b.png".data "u".data
      (by decide) (by decide) (by decide) (by decide) (by decide) (by decide)
      (by decide) (by decide) (by decide) (by decide) (by decide) (by decide)
      (by decide) (by decide) (by decide)).1,
   (c2_amended "pic".data "a.png".data " ".data "two".data "b.png".data "u".data
      (by decide) (by decide) (by decide) (by decide) (by decide) (by decide)
      (by decide) (by decide) (by decide) (by decide) (by decide) (by decide)
      (by decide) (by decide) (by decide)).2.1⟩

end ImgHost
